import Mathlib

/-!
Quota projection (internal/query/projection/quota.go) and scheduled pseudo
events (internal/repository/pseudo/events.go).

A shallow embedding of the quota projection: the table and column constants,
the table layout declared by `Init`, the five reducers, and `IncrementUsage`
together with the SQL upsert it runs.

The reducers are pure functions from an event to a statement.  The statement
values themselves (package `handler`), the event payload types (packages
`quota` and `instance`) and the helper `assertEvent` live in other packages;
they are modelled from the specification and marked so.  Rows hold their
columns by name, tables are lists of rows, and the usage column is a signed
64-bit integer as `Init` declares it.
-/

namespace Quota

/-! ## Table and column constants (quota.go, lines 16-44) -/

def QuotasProjectionTable : String := "projections.quotas"
def quotaPeriodsTableSuffix : String := "periods"
def quotaNotificationsTableSuffix : String := "notifications"
def QuotaPeriodsProjectionTable : String := QuotasProjectionTable ++ "_" ++ quotaPeriodsTableSuffix
def QuotaNotificationsTable : String := QuotasProjectionTable ++ "_" ++ quotaNotificationsTableSuffix

def QuotaColumnID : String := "id"
def QuotaColumnInstanceID : String := "instance_id"
def QuotaColumnUnit : String := "unit"
def QuotaColumnAmount : String := "amount"
def QuotaColumnFrom : String := "from_anchor"
def QuotaColumnInterval : String := "interval"
def QuotaColumnLimit : String := "limit_usage"

def QuotaPeriodColumnInstanceID : String := "instance_id"
def QuotaPeriodColumnUnit : String := "unit"
def QuotaPeriodColumnStart : String := "start"
def QuotaPeriodColumnUsage : String := "usage"

def QuotaNotificationColumnInstanceID : String := "instance_id"
def QuotaNotificationColumnUnit : String := "unit"
def QuotaNotificationColumnID : String := "id"
def QuotaNotificationColumnCallURL : String := "call_url"
def QuotaNotificationColumnPercent : String := "percent"
def QuotaNotificationColumnRepeat : String := "repeat"
def QuotaNotificationColumnLatestDuePeriodStart : String := "latest_due_period_start"
def QuotaNotificationColumnNextDueThreshold : String := "next_due_threshold"

/-! ## Values, columns, conditions, statements -/

/-- Modelled from the spec: the values a column of the three tables can hold
(text, enumerated unit, integer, boolean, timestamp, interval, or null).  The
Go code passes them as untyped `interface{}` arguments to `handler.NewCol` and
`handler.NewCond`. -/
inductive Value where
  | null
  | text (s : String)
  | enum (n : Nat)
  | int (n : Int)
  | bool (b : Bool)
  | timestamp (t : Int)
  | interval (d : Int)
  deriving DecidableEq, Repr

/-- Modelled from the spec: `handler.Column`, a column name with the value to
write. -/
structure Column where
  Name : String
  Value : Value
  deriving DecidableEq, Repr

/-- Modelled from the spec: `handler.Condition`, a column name with the value a
row must hold there to be matched. -/
structure Condition where
  Name : String
  Value : Value
  deriving DecidableEq, Repr

/-- Modelled from the spec: `handler.NewCol`. -/
def NewCol (name : String) (value : Value) : Column := ⟨name, value⟩

/-- Modelled from the spec: `handler.NewCond`. -/
def NewCond (name : String) (value : Value) : Condition := ⟨name, value⟩

/-- Modelled from the spec: the kinds of row mutation of the statement model
(create-row, update-rows, delete-rows). -/
inductive ExecKind where
  | create
  | update
  | delete
  deriving DecidableEq, Repr

/-- Modelled from the spec: one mutation of the statement model, "carrying
target table, column values, and match conditions".  The target table is given
as in the Go code by an optional suffix to the projection name
(`handler.WithTableSuffix`); the empty suffix stands for no option. -/
structure Exec where
  kind : ExecKind
  tableSuffix : String
  cols : List Column
  conds : List Condition
  deriving DecidableEq, Repr

/-- Modelled from the spec: `handler.WithTableSuffix`. -/
def WithTableSuffix (name : String) : String := name

/-- Modelled from the spec: `handler.AddCreateStatement`. -/
def AddCreateStatement (cols : List Column) (tableSuffix : String) : Exec :=
  ⟨ExecKind.create, tableSuffix, cols, []⟩

/-- Modelled from the spec: `handler.AddUpdateStatement`. -/
def AddUpdateStatement (cols : List Column) (conds : List Condition) (tableSuffix : String) : Exec :=
  ⟨ExecKind.update, tableSuffix, cols, conds⟩

/-- Modelled from the spec: `handler.AddDeleteStatement`. -/
def AddDeleteStatement (conds : List Condition) (tableSuffix : String) : Exec :=
  ⟨ExecKind.delete, tableSuffix, [], conds⟩

/-- Modelled from the spec: `eventstore.Aggregate`, the identity of the event
stream an event belongs to. -/
structure Aggregate where
  ID : String
  Typ : String
  InstanceID : String
  deriving DecidableEq, Repr

/-- Modelled from the spec: `handler.Statement`: the aggregate of the event it
was computed from and the mutations to apply as one atomic unit.  A no-op
statement carries no mutation, a single statement one, a batch several. -/
structure Statement where
  Aggregate : Aggregate
  Execute : List Exec
  deriving DecidableEq, Repr

/-! ## Events -/

/-- Modelled from the spec: `quota.AddedEventNotification`. -/
structure AddedEventNotification where
  ID : String
  Percent : Nat
  Repeat : Bool
  CallURL : String
  deriving DecidableEq, Repr

/-- Modelled from the spec: `quota.AddedEvent`. -/
structure AddedEvent where
  Aggregate : Aggregate
  Unit : Nat
  From : Int
  ResetInterval : Int
  Amount : Nat
  Limit : Bool
  Notifications : List AddedEventNotification
  deriving DecidableEq, Repr

/-- Modelled from the spec: `quota.RemovedEvent`. -/
structure RemovedEvent where
  Aggregate : Aggregate
  Unit : Nat
  deriving DecidableEq, Repr

/-- Modelled from the spec: `quota.NotificationDueEvent`.  `Threshold` is a
fixed-width unsigned integer in Go (a `uint16` in package `quota`); its width
is a parameter of `reduceQuotaNotificationDue`. -/
structure NotificationDueEvent where
  Aggregate : Aggregate
  Unit : Nat
  ID : String
  CallURL : String
  PeriodStart : Int
  Threshold : Nat
  Usage : Nat
  deriving DecidableEq, Repr

/-- Modelled from the spec: `quota.NotifiedEvent`. -/
structure NotifiedEvent where
  Aggregate : Aggregate
  Unit : Nat
  ID : String
  deriving DecidableEq, Repr

/-- Modelled from the spec: `instance.InstanceRemovedEvent`. -/
structure InstanceRemovedEvent where
  Aggregate : Aggregate
  deriving DecidableEq, Repr

/-- Modelled from the spec: `eventstore.Event`, the interface every event
satisfies, as a tagged variant over the concrete payload types the projection
knows and any other event. -/
inductive Event where
  | quotaAdded (e : AddedEvent)
  | quotaRemoved (e : RemovedEvent)
  | quotaNotificationDue (e : NotificationDueEvent)
  | quotaNotified (e : NotifiedEvent)
  | instanceRemoved (e : InstanceRemovedEvent)
  | other (aggregate : Aggregate) (eventType : String)
  deriving DecidableEq, Repr

/-- The aggregate of an event (`Event.Aggregate()`). -/
def Event.Aggregate : Event → Aggregate
  | .quotaAdded e => e.Aggregate
  | .quotaRemoved e => e.Aggregate
  | .quotaNotificationDue e => e.Aggregate
  | .quotaNotified e => e.Aggregate
  | .instanceRemoved e => e.Aggregate
  | .other a _ => a

/-- Errors the projection returns: the failed type assertion of a reducer, and
the internal error of `errors.ThrowInternalf` with its id and formatted
message. -/
inductive Error where
  | wrongEventType
  | internal (id : String) (message : String)
  deriving DecidableEq, Repr

/-- Modelled from the spec: `assertEvent[*quota.AddedEvent]`, the type
assertion on the event payload; it fails exactly when the event has another
payload type. -/
def assertAddedEvent : Event → Except Error AddedEvent
  | .quotaAdded e => .ok e
  | _ => .error Error.wrongEventType

/-- Modelled from the spec: `assertEvent[*quota.RemovedEvent]`. -/
def assertRemovedEvent : Event → Except Error RemovedEvent
  | .quotaRemoved e => .ok e
  | _ => .error Error.wrongEventType

/-- Modelled from the spec: `assertEvent[*quota.NotificationDueEvent]`. -/
def assertNotificationDueEvent : Event → Except Error NotificationDueEvent
  | .quotaNotificationDue e => .ok e
  | _ => .error Error.wrongEventType

/-- Modelled from the spec: `assertEvent[*instance.InstanceRemovedEvent]`. -/
def assertInstanceRemovedEvent : Event → Except Error InstanceRemovedEvent
  | .instanceRemoved e => .ok e
  | _ => .error Error.wrongEventType

/-- Modelled from the spec: `handler.NewNoOpStatement`. -/
def NewNoOpStatement (a : Aggregate) : Statement := ⟨a, []⟩

/-- Modelled from the spec: `handler.NewMultiStatement`. -/
def NewMultiStatement (a : Aggregate) (execs : List Exec) : Statement := ⟨a, execs⟩

/-- Modelled from the spec: `handler.NewUpdateStatement`. -/
def NewUpdateStatement (a : Aggregate) (cols : List Column) (conds : List Condition)
    (tableSuffix : String) : Statement :=
  ⟨a, [AddUpdateStatement cols conds tableSuffix]⟩

/-! ## The reducers (quota.go, lines 146-260) -/

/-- The reducer `reduceQuotaNotified`: always a no-op statement. -/
def reduceQuotaNotified (event : Event) : Except Error Statement :=
  .ok (NewNoOpStatement event.Aggregate)

/-- The create statement of the quota row, `createStatements[0]`. -/
def quotaCreateStatement (e : AddedEvent) : Exec :=
  AddCreateStatement
    [ NewCol QuotaColumnID (Value.text e.Aggregate.ID),
      NewCol QuotaColumnInstanceID (Value.text e.Aggregate.InstanceID),
      NewCol QuotaColumnUnit (Value.enum e.Unit),
      NewCol QuotaColumnAmount (Value.int e.Amount),
      NewCol QuotaColumnFrom (Value.timestamp e.From),
      NewCol QuotaColumnInterval (Value.interval e.ResetInterval),
      NewCol QuotaColumnLimit (Value.bool e.Limit) ]
    ""

/-- The create statement of one notification row, `createStatements[i+1]`. -/
def notificationCreateStatement (e : AddedEvent) (notification : AddedEventNotification) : Exec :=
  AddCreateStatement
    [ NewCol QuotaNotificationColumnInstanceID (Value.text e.Aggregate.InstanceID),
      NewCol QuotaNotificationColumnUnit (Value.enum e.Unit),
      NewCol QuotaNotificationColumnID (Value.text notification.ID),
      NewCol QuotaNotificationColumnCallURL (Value.text notification.CallURL),
      NewCol QuotaNotificationColumnPercent (Value.int notification.Percent),
      NewCol QuotaNotificationColumnRepeat (Value.bool notification.Repeat) ]
    (WithTableSuffix quotaNotificationsTableSuffix)

/-- The reducer `reduceQuotaAdded`. -/
def reduceQuotaAdded (event : Event) : Except Error Statement :=
  match assertAddedEvent event with
  | .error err => .error err
  | .ok e =>
    .ok (NewMultiStatement e.Aggregate
      (quotaCreateStatement e :: e.Notifications.map (notificationCreateStatement e)))

/-- The reducer `reduceQuotaNotificationDue`.  `bits` is the width of the
unsigned integer type of `Threshold`, in which `e.Threshold+100` is
computed. -/
def reduceQuotaNotificationDue (bits : Nat) (event : Event) : Except Error Statement :=
  match assertNotificationDueEvent event with
  | .error err => .error err
  | .ok e =>
    .ok (NewUpdateStatement e.Aggregate
      [ NewCol QuotaNotificationColumnLatestDuePeriodStart (Value.timestamp e.PeriodStart),
        NewCol QuotaNotificationColumnNextDueThreshold
          (Value.int (((e.Threshold + 100) % 2 ^ bits : Nat) : Int)) ]
      [ NewCond QuotaNotificationColumnInstanceID (Value.text e.Aggregate.InstanceID),
        NewCond QuotaNotificationColumnUnit (Value.enum e.Unit),
        NewCond QuotaNotificationColumnID (Value.text e.ID) ]
      (WithTableSuffix quotaNotificationsTableSuffix))

/-- The reducer `reduceQuotaRemoved`. -/
def reduceQuotaRemoved (event : Event) : Except Error Statement :=
  match assertRemovedEvent event with
  | .error err => .error err
  | .ok e =>
    .ok (NewMultiStatement e.Aggregate
      [ AddDeleteStatement
          [ NewCond QuotaPeriodColumnInstanceID (Value.text e.Aggregate.InstanceID),
            NewCond QuotaPeriodColumnUnit (Value.enum e.Unit) ]
          (WithTableSuffix quotaPeriodsTableSuffix),
        AddDeleteStatement
          [ NewCond QuotaNotificationColumnInstanceID (Value.text e.Aggregate.InstanceID),
            NewCond QuotaNotificationColumnUnit (Value.enum e.Unit) ]
          (WithTableSuffix quotaNotificationsTableSuffix),
        AddDeleteStatement
          [ NewCond QuotaColumnInstanceID (Value.text e.Aggregate.InstanceID),
            NewCond QuotaColumnUnit (Value.enum e.Unit) ]
          "" ])

/-- The reducer `reduceInstanceRemoved`. -/
def reduceInstanceRemoved (event : Event) : Except Error Statement :=
  match assertInstanceRemovedEvent event with
  | .error err => .error err
  | .ok e =>
    .ok (NewMultiStatement e.Aggregate
      [ AddDeleteStatement
          [ NewCond QuotaPeriodColumnInstanceID (Value.text e.Aggregate.InstanceID) ]
          (WithTableSuffix quotaPeriodsTableSuffix),
        AddDeleteStatement
          [ NewCond QuotaNotificationColumnInstanceID (Value.text e.Aggregate.InstanceID) ]
          (WithTableSuffix quotaNotificationsTableSuffix),
        AddDeleteStatement
          [ NewCond QuotaColumnInstanceID (Value.text e.Aggregate.InstanceID) ]
          "" ])

/-! ## Table layout declared by `Init` (quota.go, lines 70-109) -/

/-- Modelled from the spec: the column types of `handler` used by `Init`. -/
inductive ColumnType where
  | ColumnTypeText
  | ColumnTypeEnum
  | ColumnTypeInt64
  | ColumnTypeTimestamp
  | ColumnTypeInterval
  | ColumnTypeBool
  deriving DecidableEq, Repr

open ColumnType

/-- Modelled from the spec: `handler.InitColumn`, a declared column with its
type and whether it may be null. -/
structure InitColumn where
  Name : String
  Typ : ColumnType
  nullable : Bool
  deriving DecidableEq, Repr

/-- Modelled from the spec: `handler.NewColumn` without options. -/
def NewColumn (name : String) (typ : ColumnType) : InitColumn := ⟨name, typ, false⟩

/-- Modelled from the spec: `handler.NewColumn` with the option
`handler.Nullable()`. -/
def NewNullableColumn (name : String) (typ : ColumnType) : InitColumn := ⟨name, typ, true⟩

/-- Modelled from the spec: a declared table: columns, primary key and the
suffix to the projection name (empty for `handler.NewTable`). -/
structure InitTable where
  columns : List InitColumn
  primaryKey : List String
  suffix : String
  deriving DecidableEq, Repr

/-- Modelled from the spec: `handler.NewPrimaryKey`. -/
def NewPrimaryKey (columnNames : List String) : List String := columnNames

/-- Modelled from the spec: `handler.NewTable`. -/
def NewTable (columns : List InitColumn) (key : List String) : InitTable := ⟨columns, key, ""⟩

/-- Modelled from the spec: `handler.NewSuffixedTable`. -/
def NewSuffixedTable (columns : List InitColumn) (key : List String) (suffix : String) : InitTable :=
  ⟨columns, key, suffix⟩

/-- The method `Name`. -/
def Name : String := QuotasProjectionTable

/-- The method `Init`: the three declared tables (`handler.NewMultiTableCheck`). -/
def Init : List InitTable :=
  [ NewTable
      [ NewColumn QuotaColumnID ColumnTypeText,
        NewColumn QuotaColumnInstanceID ColumnTypeText,
        NewColumn QuotaColumnUnit ColumnTypeEnum,
        NewColumn QuotaColumnAmount ColumnTypeInt64,
        NewColumn QuotaColumnFrom ColumnTypeTimestamp,
        NewColumn QuotaColumnInterval ColumnTypeInterval,
        NewColumn QuotaColumnLimit ColumnTypeBool ]
      (NewPrimaryKey [QuotaColumnInstanceID, QuotaColumnUnit]),
    NewSuffixedTable
      [ NewColumn QuotaPeriodColumnInstanceID ColumnTypeText,
        NewColumn QuotaPeriodColumnUnit ColumnTypeEnum,
        NewColumn QuotaPeriodColumnStart ColumnTypeTimestamp,
        NewColumn QuotaPeriodColumnUsage ColumnTypeInt64 ]
      (NewPrimaryKey [QuotaPeriodColumnInstanceID, QuotaPeriodColumnUnit, QuotaPeriodColumnStart])
      quotaPeriodsTableSuffix,
    NewSuffixedTable
      [ NewColumn QuotaNotificationColumnInstanceID ColumnTypeText,
        NewColumn QuotaNotificationColumnUnit ColumnTypeEnum,
        NewColumn QuotaNotificationColumnID ColumnTypeText,
        NewColumn QuotaNotificationColumnCallURL ColumnTypeText,
        NewColumn QuotaNotificationColumnPercent ColumnTypeInt64,
        NewColumn QuotaNotificationColumnRepeat ColumnTypeBool,
        NewNullableColumn QuotaNotificationColumnLatestDuePeriodStart ColumnTypeTimestamp,
        NewNullableColumn QuotaNotificationColumnNextDueThreshold ColumnTypeInt64 ]
      (NewPrimaryKey [QuotaNotificationColumnInstanceID, QuotaNotificationColumnUnit,
        QuotaNotificationColumnID])
      quotaNotificationsTableSuffix ]

/-! ## Table state and the application of statements -/

/-- A stored row: its columns with their values. -/
abbrev Row := List (String × Value)

/-- The value a row holds in a column, if the row has the column. -/
def Row.get : Row → String → Option Value
  | [], _ => none
  | (n, v) :: rest, c => if n = c then some v else Row.get rest c

/-- Overwrite the value of a column the row has. -/
def Row.set : Row → String → Value → Row
  | [], _, _ => []
  | (n, v) :: rest, c, w => (n, if n = c then w else v) :: Row.set rest c w

/-- The state of the three tables of the projection. -/
structure Tables where
  quotas : List Row
  periods : List Row
  notifications : List Row
  deriving DecidableEq, Repr

/-- Modelled from the spec: the full name of the table a statement targets, the
projection name with the suffix option appended after an underscore. -/
def tableName (tableSuffix : String) : String :=
  if tableSuffix = "" then Name else Name ++ "_" ++ tableSuffix

/-- Rewrite the rows of the table of the given name; other names denote no
table of this projection. -/
def Tables.modify (db : Tables) (name : String) (f : List Row → List Row) : Tables :=
  if name = QuotasProjectionTable then ⟨f db.quotas, db.periods, db.notifications⟩
  else if name = QuotaPeriodsProjectionTable then ⟨db.quotas, f db.periods, db.notifications⟩
  else if name = QuotaNotificationsTable then ⟨db.quotas, db.periods, f db.notifications⟩
  else db

/-- Modelled from the spec: a row is matched by a list of conditions when it
holds the value of every condition in the column of that condition. -/
def matchesConds (conds : List Condition) (r : Row) : Bool :=
  conds.all (fun c => decide (r.get c.Name = some c.Value))

/-- Modelled from the spec: write the column values of a statement into a
row. -/
def setCols (cols : List Column) (r : Row) : Row :=
  cols.foldl (fun acc c => acc.set c.Name c.Value) r

/-- Modelled from the spec: the value a statement gives for a column, null
when the statement does not set it ("left unset (null) at creation"). -/
def colValue (cols : List Column) (name : String) : Value :=
  match cols.find? (fun c => decide (c.Name = name)) with
  | some c => c.Value
  | none => Value.null

/-- Modelled from the spec: the row a create statement makes in a table of the
given declared columns. -/
def newRow (columns : List InitColumn) (cols : List Column) : Row :=
  columns.map (fun c => (c.Name, colValue cols c.Name))

/-- Whether two rows agree on every column of a primary key. -/
def sameKey (key : List String) (a b : Row) : Bool :=
  key.all (fun c => decide (a.get c = b.get c))

/-- Modelled from the spec: how a create statement treats a row whose primary
key is already present, "upsert-or-ignore-on-duplicate": either of the two. -/
inductive OnDuplicate where
  | ignore
  | upsert
  deriving DecidableEq, Repr

/-- Modelled from the spec: a create statement applied to the rows of a
table. -/
def createRow (mode : OnDuplicate) (t : InitTable) (cols : List Column) (rows : List Row) : List Row :=
  if rows.any (sameKey t.primaryKey (newRow t.columns cols)) then
    match mode with
    | OnDuplicate.ignore => rows
    | OnDuplicate.upsert =>
      rows.map (fun r => if sameKey t.primaryKey (newRow t.columns cols) r then setCols cols r else r)
  else rows ++ [newRow t.columns cols]

/-- Modelled from the spec: an update statement applied to the rows of a
table; a statement that matches no row changes nothing. -/
def updateRows (cols : List Column) (conds : List Condition) (rows : List Row) : List Row :=
  rows.map (fun r => if matchesConds conds r then setCols cols r else r)

/-- Modelled from the spec: a delete statement applied to the rows of a
table. -/
def deleteRows (conds : List Condition) (rows : List Row) : List Row :=
  rows.filter (fun r => !matchesConds conds r)

/-- Modelled from the spec: one mutation applied to the table state. -/
def applyExec (mode : OnDuplicate) (db : Tables) (x : Exec) : Tables :=
  match Init.find? (fun t => decide (t.suffix = x.tableSuffix)) with
  | none => db
  | some t =>
    db.modify (tableName x.tableSuffix)
      (match x.kind with
       | ExecKind.create => createRow mode t x.cols
       | ExecKind.update => updateRows x.cols x.conds
       | ExecKind.delete => deleteRows x.conds)

/-- Modelled from the spec: a statement applied to the table state, its
mutations in order. -/
def applyStatement (mode : OnDuplicate) (db : Tables) (s : Statement) : Tables :=
  s.Execute.foldl (applyExec mode) db

/-! ## IncrementUsage (quota.go, lines 46-51 and 262-276) -/

/-- The SQL text `incrementQuotaStatement`. -/
def incrementQuotaStatement : String :=
  "INSERT INTO projections.quotas_periods" ++
  " (instance_id, unit, start, usage)" ++
  " VALUES ($1, $2, $3, $4) ON CONFLICT (instance_id, unit, start)" ++
  " DO UPDATE SET usage = projections.quotas_periods.usage + excluded.usage RETURNING usage"

/-- The largest value of a column of type `ColumnTypeInt64`. -/
def maxInt64 : Int := 2 ^ 63 - 1

/-- The conflict target of `incrementQuotaStatement` bound to the arguments
`$1, $2, $3`. -/
def periodKey (instanceID : String) (unit : Nat) (periodStart : Int) : List Condition :=
  [ NewCond QuotaPeriodColumnInstanceID (Value.text instanceID),
    NewCond QuotaPeriodColumnUnit (Value.enum unit),
    NewCond QuotaPeriodColumnStart (Value.timestamp periodStart) ]

/-- The row `incrementQuotaStatement` inserts: `VALUES ($1, $2, $3, $4)` in the
columns `(instance_id, unit, start, usage)`. -/
def periodRow (instanceID : String) (unit : Nat) (periodStart : Int) (count : Int) : Row :=
  [ (QuotaPeriodColumnInstanceID, Value.text instanceID),
    (QuotaPeriodColumnUnit, Value.enum unit),
    (QuotaPeriodColumnStart, Value.timestamp periodStart),
    (QuotaPeriodColumnUsage, Value.int count) ]

/-- The upsert of `incrementQuotaStatement` on the rows of the periods table:
the row in conflict gets `usage + excluded.usage`, else the new row is
inserted; the result is the new rows with the `RETURNING usage` value.  The
statement fails (`none`) when the new usage does not fit the signed 64-bit
column or the row in conflict holds no integer usage. -/
def upsertUsage (instanceID : String) (unit : Nat) (periodStart : Int) (count : Int) :
    List Row → Option (List Row × Int)
  | [] =>
    if count ≤ maxInt64 then some ([periodRow instanceID unit periodStart count], count) else none
  | r :: rest =>
    if matchesConds (periodKey instanceID unit periodStart) r then
      match r.get QuotaPeriodColumnUsage with
      | some (Value.int n) =>
        if n + count ≤ maxInt64 then
          some (r.set QuotaPeriodColumnUsage (Value.int (n + count)) :: rest, n + count)
        else none
      | _ => none
    else
      match upsertUsage instanceID unit periodStart count rest with
      | some (rest', sum) => some (r :: rest', sum)
      | none => none

/-- What a call of `IncrementUsage` returns and does: the two results `sum`
and `err`, the table state after the call, and the SQL statements it ran. -/
structure IncrementResult where
  sum : Nat
  err : Option Error
  db : Tables
  executed : List String
  deriving DecidableEq, Repr

/-- The error `IncrementUsage` returns when the query fails:
`errors.ThrowInternalf(err, "PROJ-SJL3h", "incrementing usage for unit %d
failed for at least one quota period", unit)`. -/
def incrementError (unit : Nat) : Error :=
  Error.internal "PROJ-SJL3h"
    ("incrementing usage for unit " ++ toString unit ++ " failed for at least one quota period")

/-- The method `IncrementUsage`.  `count` is a `uint64`. -/
def IncrementUsage (db : Tables) (unit : Nat) (instanceID : String) (periodStart : Int)
    (count : Nat) : IncrementResult :=
  if count = 0 then ⟨0, none, db, []⟩
  else
    match upsertUsage instanceID unit periodStart count db.periods with
    | none => ⟨0, some (incrementError unit), db, [incrementQuotaStatement]⟩
    | some (rows, sum) =>
      if sum < 0 then
        ⟨0, some (incrementError unit), ⟨db.quotas, rows, db.notifications⟩,
          [incrementQuotaStatement]⟩
      else ⟨sum.toNat, none, ⟨db.quotas, rows, db.notifications⟩, [incrementQuotaStatement]⟩

/-- The outcome of `QueryRowContext(...).Scan(&sum)`: an error, or the value
scanned into `sum`. -/
inductive ScanResult where
  | failed
  | scanned (sum : Nat)
  deriving DecidableEq, Repr

/-- The body of `IncrementUsage` over any database: `run` stands for
`q.client.DB.QueryRowContext(ctx, incrementQuotaStatement, instanceID, unit,
periodStart, count).Scan(&sum)` and gives the outcome of the query with the
table state it leaves. -/
def IncrementUsageWith (run : Tables → String → Nat → Int → Nat → ScanResult × Tables)
    (db : Tables) (unit : Nat) (instanceID : String) (periodStart : Int) (count : Nat) :
    IncrementResult :=
  if count = 0 then ⟨0, none, db, []⟩
  else
    match run db instanceID unit periodStart count with
    | (ScanResult.failed, db') => ⟨0, some (incrementError unit), db', [incrementQuotaStatement]⟩
    | (ScanResult.scanned sum, db') => ⟨sum, none, db', [incrementQuotaStatement]⟩

/-- The query of `IncrementUsage` on the table model: the upsert of
`incrementQuotaStatement`, which fails when the statement fails or when the
returned usage cannot be scanned into the unsigned `sum`. -/
def runIncrementQuotaStatement (db : Tables) (instanceID : String) (unit : Nat)
    (periodStart : Int) (count : Nat) : ScanResult × Tables :=
  match upsertUsage instanceID unit periodStart count db.periods with
  | none => (ScanResult.failed, db)
  | some (rows, sum) =>
    if sum < 0 then (ScanResult.failed, ⟨db.quotas, rows, db.notifications⟩)
    else (ScanResult.scanned sum.toNat, ⟨db.quotas, rows, db.notifications⟩)

/-- The usage stored for a period key: the usage column of the row of that
key, if there is one. -/
def storedUsage (db : Tables) (unit : Nat) (instanceID : String) (periodStart : Int) : Option Value :=
  match db.periods.find? (matchesConds (periodKey instanceID unit periodStart)) with
  | some r => r.get QuotaPeriodColumnUsage
  | none => none

/-- Run a sequence of `IncrementUsage` calls on the same unit, instance and
period start, one after the other, with the given counts. -/
def incrementAll (db : Tables) (unit : Nat) (instanceID : String) (periodStart : Int)
    (counts : List Nat) : Tables :=
  counts.foldl (fun acc c => (IncrementUsage acc unit instanceID periodStart c).db) db

/-! ## Statements as the specification describes them -/

/-- The update statement the specification describes for a notification-due
event: on the notifications table, setting `latest_due_period_start` and
`next_due_threshold`, matched by `instance_id`, `unit` and `id`. -/
def dueUpdateSpec (instanceID : String) (unit : Nat) (id : String) (periodStart : Int)
    (nextDue : Int) : Exec :=
  { kind := ExecKind.update
    tableSuffix := "notifications"
    cols := [⟨"latest_due_period_start", Value.timestamp periodStart⟩,
             ⟨"next_due_threshold", Value.int nextDue⟩]
    conds := [⟨"instance_id", Value.text instanceID⟩, ⟨"unit", Value.enum unit⟩,
              ⟨"id", Value.text id⟩] }

/-- The create statement the specification describes for the quota row of a
quota-added event: on the quota table, with the seven columns of the row. -/
def quotaCreateSpec (e : AddedEvent) : Exec :=
  { kind := ExecKind.create
    tableSuffix := ""
    cols := [⟨"id", Value.text e.Aggregate.ID⟩,
             ⟨"instance_id", Value.text e.Aggregate.InstanceID⟩,
             ⟨"unit", Value.enum e.Unit⟩,
             ⟨"amount", Value.int e.Amount⟩,
             ⟨"from_anchor", Value.timestamp e.From⟩,
             ⟨"interval", Value.interval e.ResetInterval⟩,
             ⟨"limit_usage", Value.bool e.Limit⟩]
    conds := [] }

/-- The create statement the specification describes for one notification of a
quota-added event: on the notifications table, with six columns. -/
def notificationCreateSpec (instanceID : String) (unit : Nat) (n : AddedEventNotification) : Exec :=
  { kind := ExecKind.create
    tableSuffix := "notifications"
    cols := [⟨"instance_id", Value.text instanceID⟩,
             ⟨"unit", Value.enum unit⟩,
             ⟨"id", Value.text n.ID⟩,
             ⟨"call_url", Value.text n.CallURL⟩,
             ⟨"percent", Value.int n.Percent⟩,
             ⟨"repeat", Value.bool n.Repeat⟩]
    conds := [] }

/-- The quota row a quota-added event describes. -/
def quotaRowSpec (e : AddedEvent) : Row :=
  [ ("id", Value.text e.Aggregate.ID),
    ("instance_id", Value.text e.Aggregate.InstanceID),
    ("unit", Value.enum e.Unit),
    ("amount", Value.int e.Amount),
    ("from_anchor", Value.timestamp e.From),
    ("interval", Value.interval e.ResetInterval),
    ("limit_usage", Value.bool e.Limit) ]

/-- The notification row a quota-added event describes for one of its
notifications, with `latest_due_period_start` and `next_due_threshold` null. -/
def notificationRowSpec (instanceID : String) (unit : Nat) (n : AddedEventNotification) : Row :=
  [ ("instance_id", Value.text instanceID),
    ("unit", Value.enum unit),
    ("id", Value.text n.ID),
    ("call_url", Value.text n.CallURL),
    ("percent", Value.int n.Percent),
    ("repeat", Value.bool n.Repeat),
    ("latest_due_period_start", Value.null),
    ("next_due_threshold", Value.null) ]

/-- A row of the scope (instance, unit): it holds the two values in
`instance_id` and `unit`. -/
def inScope (instanceID : String) (unit : Nat) (r : Row) : Bool :=
  decide (r.get "instance_id" = some (Value.text instanceID))
    && decide (r.get "unit" = some (Value.enum unit))

/-- A row of an instance: it holds the instance in `instance_id`. -/
def ofInstance (instanceID : String) (r : Row) : Bool :=
  decide (r.get "instance_id" = some (Value.text instanceID))

/-- The delete statement the specification describes for a scope (instance,
unit) on the table of the given suffix. -/
def deleteScopeSpec (tableSuffix : String) (instanceID : String) (unit : Nat) : Exec :=
  { kind := ExecKind.delete
    tableSuffix := tableSuffix
    cols := []
    conds := [⟨"instance_id", Value.text instanceID⟩, ⟨"unit", Value.enum unit⟩] }

/-- The delete statement the specification describes for an instance on the
table of the given suffix. -/
def deleteInstanceSpec (tableSuffix : String) (instanceID : String) : Exec :=
  { kind := ExecKind.delete
    tableSuffix := tableSuffix
    cols := []
    conds := [⟨"instance_id", Value.text instanceID⟩] }

/-- The statement a reducer returns, if it returns one. -/
def statementOf (r : Except Error Statement) : Option Statement :=
  match r with
  | .ok s => some s
  | .error _ => none

/-- The error a reducer returns, if it returns one. -/
def errorOf (r : Except Error Statement) : Option Error :=
  match r with
  | .ok _ => none
  | .error err => some err

/-! ## The dispatch table (quota.go, lines 111-144) -/

/-- Modelled from the spec: `handler.EventReducer`, an event type with the
reducer for events of that type. -/
structure EventReducer where
  Event : String
  Reduce : Quota.Event → Except Error Statement

/-- Modelled from the spec: `handler.AggregateReducer`, an aggregate type with
the reducers of its events. -/
structure AggregateReducer where
  Aggregate : String
  EventReducers : List EventReducer

/-- The aggregate-type and event-type constants of the packages `instance` and
`quota` that `Reducers` refers to; their values are declared in those
packages and are parameters here. -/
structure EventTypes where
  instanceAggregateType : String
  InstanceRemovedEventType : String
  quotaAggregateType : String
  AddedEventType : String
  RemovedEventType : String
  NotificationDueEventType : String
  NotifiedEventType : String
  deriving DecidableEq, Repr

/-- The method `Reducers`.  `bits` is the width of the threshold type, see
`reduceQuotaNotificationDue`. -/
def Reducers (bits : Nat) (names : EventTypes) : List AggregateReducer :=
  [ { Aggregate := names.instanceAggregateType
      EventReducers :=
        [ { Event := names.InstanceRemovedEventType, Reduce := reduceInstanceRemoved } ] },
    { Aggregate := names.quotaAggregateType
      EventReducers :=
        [ { Event := names.AddedEventType, Reduce := reduceQuotaAdded },
          { Event := names.RemovedEventType, Reduce := reduceQuotaRemoved },
          { Event := names.NotificationDueEventType, Reduce := reduceQuotaNotificationDue bits },
          { Event := names.NotifiedEventType, Reduce := reduceQuotaNotified } ] } ]

/-- The (aggregate type, event type) pairs of a dispatch table, in order. -/
def dispatchPairs (table : List AggregateReducer) : List (String × String) :=
  table.flatMap (fun a => a.EventReducers.map (fun r => (a.Aggregate, r.Event)))

/-- The reducer functions of a dispatch table, in order. -/
def dispatchReducers (table : List AggregateReducer) : List (Event → Except Error Statement) :=
  table.flatMap (fun a => a.EventReducers.map (fun r => r.Reduce))

/-- The reducer a dispatch table gives for an aggregate type and an event
type: the first entry of that pair. -/
def dispatch (table : List AggregateReducer) (aggregateType eventType : String) :
    Option (Event → Except Error Statement) :=
  match table.find? (fun a => decide (a.Aggregate = aggregateType)
      && a.EventReducers.any (fun r => decide (r.Event = eventType))) with
  | none => none
  | some a =>
    match a.EventReducers.find? (fun r => decide (r.Event = eventType)) with
    | none => none
    | some r => some r.Reduce

end Quota

/-! ## Scheduled pseudo events (internal/repository/pseudo/events.go) -/

namespace Pseudo

/-- The constant `eventTypePrefix`. -/
def eventTypePrefix : String := "pseudo."

/-- The constant `ScheduledEventType`. -/
def ScheduledEventType : String := eventTypePrefix ++ "timestamp"

/-- Modelled from the spec: `eventstore.BaseEvent` as far as the constructor
fills it: the aggregate and the event type. -/
structure BaseEvent where
  Aggregate : Quota.Aggregate
  EventType : String
  deriving DecidableEq, Repr

/-- Modelled from the spec: `eventstore.NewBaseEventForPush`, the base event of
an aggregate and an event type. -/
def NewBaseEventForPush (aggregate : Quota.Aggregate) (typ : String) : BaseEvent :=
  ⟨aggregate, typ⟩

/-- The type `ScheduledEvent`.  `TriggeringEvent` is an interface value and may
be absent. -/
structure ScheduledEvent where
  BaseEvent : BaseEvent
  Timestamp : Int
  InstanceIDs : List String
  TriggeringEvent : Option Quota.Event
  deriving DecidableEq, Repr

/-- The function `NewScheduledEvent`.  `aggregate` stands for
`NewAggregate().Aggregate`, which is declared in another file of the
package. -/
def NewScheduledEvent (aggregate : Quota.Aggregate) (timestamp : Int)
    (triggeringEvent : Option Quota.Event) (instanceIDs : List String) : ScheduledEvent :=
  { BaseEvent := NewBaseEventForPush aggregate ScheduledEventType
    Timestamp := timestamp
    InstanceIDs := instanceIDs
    TriggeringEvent := triggeringEvent }

end Pseudo

namespace Quota

/-! ## Basic facts about rows and tables -/

theorem tableName_empty : tableName "" = QuotasProjectionTable := by decide

theorem tableName_periods : tableName quotaPeriodsTableSuffix = QuotaPeriodsProjectionTable := by
  decide

theorem tableName_notifications :
    tableName quotaNotificationsTableSuffix = QuotaNotificationsTable := by decide

theorem Row.get_set (r : Row) (c : String) (v : Value) (c' : String) :
    (r.set c v).get c' = if c' = c then (r.get c).map (fun _ => v) else r.get c' := by
  induction r with
  | nil => simp [Row.set, Row.get]
  | cons p rest ih =>
    obtain ⟨n, w⟩ := p
    by_cases hn : n = c
    · by_cases hc : c' = c
      · simp [Row.set, Row.get, hn, hc]
      · have hc2 : ¬ c = c' := fun h => hc h.symm
        simp [Row.set, Row.get, hn, hc, hc2, ih]
    · by_cases hc : c' = c
      · subst hc
        simp [Row.set, Row.get, hn, ih]
      · simp [Row.set, Row.get, hn, hc, ih]

theorem Row.get_set_of_ne (r : Row) (c : String) (v : Value) (c' : String) (h : c' ≠ c) :
    (r.set c v).get c' = r.get c' := by
  rw [Row.get_set, if_neg h]

theorem Row.get_set_self (r : Row) (c : String) (v : Value) :
    (r.set c v).get c = (r.get c).map (fun _ => v) := by
  rw [Row.get_set, if_pos rfl]

theorem applyExec_quotas (mode : OnDuplicate) (db : Tables) (kind : ExecKind) (cols : List Column)
    (conds : List Condition) :
    applyExec mode db ⟨kind, "", cols, conds⟩ =
      ⟨(match kind with
        | ExecKind.create => createRow mode (Init.get ⟨0, by decide⟩) cols
        | ExecKind.update => updateRows cols conds
        | ExecKind.delete => deleteRows conds) db.quotas, db.periods, db.notifications⟩ := by
  cases kind <;> rfl

theorem applyExec_periods (mode : OnDuplicate) (db : Tables) (kind : ExecKind) (cols : List Column)
    (conds : List Condition) :
    applyExec mode db ⟨kind, quotaPeriodsTableSuffix, cols, conds⟩ =
      ⟨db.quotas, (match kind with
        | ExecKind.create => createRow mode (Init.get ⟨1, by decide⟩) cols
        | ExecKind.update => updateRows cols conds
        | ExecKind.delete => deleteRows conds) db.periods, db.notifications⟩ := by
  cases kind <;> rfl

theorem applyExec_notifications (mode : OnDuplicate) (db : Tables) (kind : ExecKind)
    (cols : List Column) (conds : List Condition) :
    applyExec mode db ⟨kind, quotaNotificationsTableSuffix, cols, conds⟩ =
      ⟨db.quotas, db.periods, (match kind with
        | ExecKind.create => createRow mode (Init.get ⟨2, by decide⟩) cols
        | ExecKind.update => updateRows cols conds
        | ExecKind.delete => deleteRows conds) db.notifications⟩ := by
  cases kind <;> rfl

/-! ## Notification-due -/

theorem setCols_due_get (r : Row) (p : Value) (t : Value) (c : String) :
    (setCols [⟨"latest_due_period_start", p⟩, ⟨"next_due_threshold", t⟩] r).get c =
      if c = "latest_due_period_start" then (r.get c).map (fun _ => p)
      else if c = "next_due_threshold" then (r.get c).map (fun _ => t)
      else r.get c := by
  simp only [setCols, List.foldl, Row.get_set]
  by_cases h1 : c = "latest_due_period_start"
  · subst h1
    simp
  · by_cases h2 : c = "next_due_threshold"
    · subst h2
      simp [Option.map_map]
    · simp [h1, h2]

/-- For every notification-due event whose threshold plus 100 fits the
unsigned integer type of the threshold, `reduceQuotaNotificationDue` returns
without error exactly one update statement on the notifications table,
setting `latest_due_period_start` to the period start and `next_due_threshold`
to the threshold plus 100, matched by `instance_id`, `unit` and `id`; applied to
any table state it leaves the quota and period tables as they are, rewrites
the notification rows in place, leaves every non-matched row unchanged and
leaves every column other than the two it sets (so `percent`, `repeat`,
`call_url`, `id`) unchanged in the matched rows. -/
theorem reduceQuotaNotificationDue_sets_next_threshold (bits : Nat) (e : NotificationDueEvent)
    (hfit : e.Threshold + 100 < 2 ^ bits) (mode : OnDuplicate) (db : Tables) :
    reduceQuotaNotificationDue bits (Event.quotaNotificationDue e) =
        Except.ok ⟨e.Aggregate,
          [dueUpdateSpec e.Aggregate.InstanceID e.Unit e.ID e.PeriodStart (e.Threshold + 100)]⟩
      ∧ tableName "notifications" = "projections.quotas_notifications"
      ∧ (applyStatement mode db ⟨e.Aggregate,
          [dueUpdateSpec e.Aggregate.InstanceID e.Unit e.ID e.PeriodStart (e.Threshold + 100)]⟩).quotas
          = db.quotas
      ∧ (applyStatement mode db ⟨e.Aggregate,
          [dueUpdateSpec e.Aggregate.InstanceID e.Unit e.ID e.PeriodStart (e.Threshold + 100)]⟩).periods
          = db.periods
      ∧ (applyStatement mode db ⟨e.Aggregate,
          [dueUpdateSpec e.Aggregate.InstanceID e.Unit e.ID e.PeriodStart (e.Threshold + 100)]⟩).notifications
          = db.notifications.map (fun r =>
              if r.get "instance_id" = some (Value.text e.Aggregate.InstanceID)
                  ∧ r.get "unit" = some (Value.enum e.Unit)
                  ∧ r.get "id" = some (Value.text e.ID)
              then setCols [⟨"latest_due_period_start", Value.timestamp e.PeriodStart⟩,
                            ⟨"next_due_threshold", Value.int (e.Threshold + 100)⟩] r
              else r)
      ∧ ∀ r : Row,
          (setCols [⟨"latest_due_period_start", Value.timestamp e.PeriodStart⟩,
                    ⟨"next_due_threshold", Value.int (e.Threshold + 100)⟩] r).get
              "latest_due_period_start"
            = (r.get "latest_due_period_start").map (fun _ => Value.timestamp e.PeriodStart)
          ∧ (setCols [⟨"latest_due_period_start", Value.timestamp e.PeriodStart⟩,
                    ⟨"next_due_threshold", Value.int (e.Threshold + 100)⟩] r).get
              "next_due_threshold"
            = (r.get "next_due_threshold").map (fun _ => Value.int (e.Threshold + 100))
          ∧ ∀ c : String, c ≠ "latest_due_period_start" → c ≠ "next_due_threshold" →
              (setCols [⟨"latest_due_period_start", Value.timestamp e.PeriodStart⟩,
                        ⟨"next_due_threshold", Value.int (e.Threshold + 100)⟩] r).get c
                = r.get c := by
  refine ⟨?_, by decide, ?_, ?_, ?_, ?_⟩
  · simp only [reduceQuotaNotificationDue, assertNotificationDueEvent, Nat.mod_eq_of_lt hfit]
    simp [NewUpdateStatement, AddUpdateStatement, dueUpdateSpec, NewCol, NewCond, WithTableSuffix,
      QuotaNotificationColumnLatestDuePeriodStart, QuotaNotificationColumnNextDueThreshold,
      QuotaNotificationColumnInstanceID, QuotaNotificationColumnUnit, QuotaNotificationColumnID,
      quotaNotificationsTableSuffix]
  · simp only [applyStatement, List.foldl, dueUpdateSpec]
    rw [show ("notifications" : String) = quotaNotificationsTableSuffix from rfl,
      applyExec_notifications]
  · simp only [applyStatement, List.foldl, dueUpdateSpec]
    rw [show ("notifications" : String) = quotaNotificationsTableSuffix from rfl,
      applyExec_notifications]
  · simp only [applyStatement, List.foldl, dueUpdateSpec]
    rw [show ("notifications" : String) = quotaNotificationsTableSuffix from rfl,
      applyExec_notifications]
    simp [updateRows, matchesConds, and_assoc]
  · intro r
    refine ⟨?_, ?_, ?_⟩
    · rw [setCols_due_get]; simp
    · rw [setCols_due_get]; simp
    · intro c h1 h2
      rw [setCols_due_get]; simp [h1, h2]

/-- An instance of `reduceQuotaNotificationDue_sets_next_threshold`: a 16-bit
threshold of 80 in period 7 gives the next due threshold 180. -/
theorem reduceQuotaNotificationDue_sets_next_threshold_witness :
    80 + 100 < 2 ^ 16 ∧
    reduceQuotaNotificationDue 16
        (Event.quotaNotificationDue ⟨⟨"q1", "quota", "i1"⟩, 1, "n1", "url", 7, 80, 850⟩) =
      Except.ok ⟨⟨"q1", "quota", "i1"⟩, [dueUpdateSpec "i1" 1 "n1" 7 180]⟩ :=
  ⟨by decide,
   (reduceQuotaNotificationDue_sets_next_threshold 16
      ⟨⟨"q1", "quota", "i1"⟩, 1, "n1", "url", 7, 80, 850⟩ (by decide) OnDuplicate.ignore
      ⟨[], [], []⟩).1⟩

/-- C1, the code at the failing input: for the notification-due event of
instance i1, unit 1, id n1, period start 7 with the 16-bit threshold 65535,
`reduceQuotaNotificationDue` returns the update statement that sets
`next_due_threshold` to 99, which is not the statement setting it to
65535 + 100. -/
theorem reduceQuotaNotificationDue_wraps :
    reduceQuotaNotificationDue 16
        (Event.quotaNotificationDue ⟨⟨"q1", "quota", "i1"⟩, 1, "n1", "url", 7, 65535, 0⟩) =
      Except.ok ⟨⟨"q1", "quota", "i1"⟩, [dueUpdateSpec "i1" 1 "n1" 7 99]⟩
    ∧ dueUpdateSpec "i1" 1 "n1" 7 99 ≠ dueUpdateSpec "i1" 1 "n1" 7 (65535 + 100) := by
  constructor
  · rfl
  · decide

/-! ## IncrementUsage -/

theorem matchesConds_periodRow (instanceID : String) (unit : Nat) (periodStart : Int) (n : Int) :
    matchesConds (periodKey instanceID unit periodStart)
      (periodRow instanceID unit periodStart n) = true := by
  simp [matchesConds, periodKey, periodRow, NewCond, Row.get, QuotaPeriodColumnInstanceID,
    QuotaPeriodColumnUnit, QuotaPeriodColumnStart, QuotaPeriodColumnUsage]

theorem matchesConds_set_usage (instanceID : String) (unit : Nat) (periodStart : Int) (r : Row)
    (v : Value) :
    matchesConds (periodKey instanceID unit periodStart) (r.set QuotaPeriodColumnUsage v) =
      matchesConds (periodKey instanceID unit periodStart) r := by
  simp [matchesConds, periodKey, NewCond, Row.get_set, QuotaPeriodColumnInstanceID,
    QuotaPeriodColumnUnit, QuotaPeriodColumnStart, QuotaPeriodColumnUsage]

theorem periodRow_set_usage (instanceID : String) (unit : Nat) (periodStart : Int) (n m : Int) :
    (periodRow instanceID unit periodStart n).set QuotaPeriodColumnUsage (Value.int m) =
      periodRow instanceID unit periodStart m := by
  simp [periodRow, Row.set, QuotaPeriodColumnInstanceID, QuotaPeriodColumnUnit,
    QuotaPeriodColumnStart, QuotaPeriodColumnUsage]

theorem periodRow_get_usage (instanceID : String) (unit : Nat) (periodStart : Int) (n : Int) :
    (periodRow instanceID unit periodStart n).get QuotaPeriodColumnUsage = some (Value.int n) := by
  simp [periodRow, Row.get, QuotaPeriodColumnInstanceID, QuotaPeriodColumnUnit,
    QuotaPeriodColumnStart, QuotaPeriodColumnUsage]

/-- The upsert on a table without a row of the key appends the new row. -/
theorem upsertUsage_absent (instanceID : String) (unit : Nat) (periodStart : Int) (count : Int)
    (hc : count ≤ maxInt64) (rows : List Row)
    (habs : ∀ r ∈ rows, matchesConds (periodKey instanceID unit periodStart) r = false) :
    upsertUsage instanceID unit periodStart count rows =
      some (rows ++ [periodRow instanceID unit periodStart count], count) := by
  induction rows with
  | nil => simp [upsertUsage, hc]
  | cons r rest ih =>
    have hr := habs r (List.mem_cons_self _ _)
    have hrest := ih (fun x hx => habs x (List.mem_cons_of_mem _ hx))
    simp [upsertUsage, hr, hrest]

/-- The upsert on a table whose only row of the key is the last one adds the
count to the usage of that row. -/
theorem upsertUsage_last (instanceID : String) (unit : Nat) (periodStart : Int) (n count : Int)
    (hc : n + count ≤ maxInt64) (rows : List Row)
    (habs : ∀ r ∈ rows, matchesConds (periodKey instanceID unit periodStart) r = false) :
    upsertUsage instanceID unit periodStart count
        (rows ++ [periodRow instanceID unit periodStart n]) =
      some (rows ++ [periodRow instanceID unit periodStart (n + count)], n + count) := by
  induction rows with
  | nil =>
    simp [upsertUsage, matchesConds_periodRow, periodRow_get_usage, periodRow_set_usage, hc]
  | cons r rest ih =>
    have hr := habs r (List.mem_cons_self _ _)
    have hrest := ih (fun x hx => habs x (List.mem_cons_of_mem _ hx))
    simp [upsertUsage, hr, hrest]

/-- What a successful upsert does to the rows of the periods table. -/
theorem upsertUsage_some (instanceID : String) (unit : Nat) (periodStart : Int) (count : Int)
    (rows rows' : List Row) (sum : Int)
    (h : upsertUsage instanceID unit periodStart count rows = some (rows', sum)) :
    rows'.filter (fun r => !matchesConds (periodKey instanceID unit periodStart) r) =
        rows.filter (fun r => !matchesConds (periodKey instanceID unit periodStart) r)
      ∧ (∃ r', rows'.find? (matchesConds (periodKey instanceID unit periodStart)) = some r'
            ∧ r'.get QuotaPeriodColumnUsage = some (Value.int sum))
      ∧ (rows.find? (matchesConds (periodKey instanceID unit periodStart)) = none →
            sum = count ∧ rows' = rows ++ [periodRow instanceID unit periodStart count])
      ∧ (∀ r, rows.find? (matchesConds (periodKey instanceID unit periodStart)) = some r →
            ∃ n, r.get QuotaPeriodColumnUsage = some (Value.int n) ∧ sum = n + count)
      ∧ sum ≤ maxInt64 := by
  induction rows generalizing rows' sum with
  | nil =>
    by_cases hc : count ≤ maxInt64
    · simp only [upsertUsage, hc, if_true, Option.some.injEq, Prod.mk.injEq] at h
      obtain ⟨h1, h2⟩ := h
      subst h1 h2
      simp [matchesConds_periodRow, periodRow_get_usage, hc]
    · simp [upsertUsage, hc] at h
  | cons r rest ih =>
    by_cases hm : matchesConds (periodKey instanceID unit periodStart) r = true
    · simp only [upsertUsage, hm, if_true] at h
      cases hu : r.get QuotaPeriodColumnUsage with
      | none => simp [hu] at h
      | some v =>
        cases v with
        | int n =>
          by_cases hc : n + count ≤ maxInt64
          · simp only [hu, hc, if_true, Option.some.injEq, Prod.mk.injEq] at h
            obtain ⟨h1, h2⟩ := h
            subst h1 h2
            simp [List.filter, List.find?, hm, matchesConds_set_usage, Row.get_set_self, hu, hc]
          · simp [hu, hc] at h
        | _ => simp [hu] at h
    · have hm' : matchesConds (periodKey instanceID unit periodStart) r = false := by
        simpa using hm
      simp only [upsertUsage, hm'] at h
      cases hrec : upsertUsage instanceID unit periodStart count rest with
      | none => simp [hrec] at h
      | some res =>
        obtain ⟨rest', s⟩ := res
        simp only [hrec, Bool.false_eq_true, if_false, Option.some.injEq, Prod.mk.injEq] at h
        obtain ⟨h1, h2⟩ := h
        subst h1 h2
        obtain ⟨i1, i2, i3, i4, i5⟩ := ih rest' s hrec
        refine ⟨?_, ?_, ?_, ?_, i5⟩
        · simp [List.filter, hm', i1]
        · simpa [List.find?, hm'] using i2
        · intro hnone
          have hnone' : rest.find? (matchesConds (periodKey instanceID unit periodStart)) = none := by
            simpa [List.find?, hm'] using hnone
          obtain ⟨j1, j2⟩ := i3 hnone'
          exact ⟨j1, by simp [j2]⟩
        · intro r0 hr0
          have hr0' : rest.find? (matchesConds (periodKey instanceID unit periodStart)) = some r0 := by
            simpa [List.find?, hm'] using hr0
          exact i4 r0 hr0'

theorem IncrementUsage_last (q pre nt : List Row) (unit : Nat) (instanceID : String)
    (periodStart : Int) (n : Int) (count : Nat) (hn : 0 ≤ n) (hfit : n + count ≤ maxInt64)
    (habs : ∀ r ∈ pre, matchesConds (periodKey instanceID unit periodStart) r = false) :
    (IncrementUsage ⟨q, pre ++ [periodRow instanceID unit periodStart n], nt⟩ unit instanceID
        periodStart count).db =
      ⟨q, pre ++ [periodRow instanceID unit periodStart (n + count)], nt⟩ := by
  by_cases hc : count = 0
  · subst hc
    simp [IncrementUsage]
  · have hneg : ¬ (n + (count : Int) < 0) := by omega
    simp [IncrementUsage, hc, upsertUsage_last instanceID unit periodStart n count hfit pre habs,
      hneg]

theorem incrementAll_last (q pre nt : List Row) (unit : Nat) (instanceID : String)
    (periodStart : Int) (counts : List Nat) (n : Int) (hn : 0 ≤ n)
    (hfit : n + (counts.sum : Nat) ≤ maxInt64)
    (habs : ∀ r ∈ pre, matchesConds (periodKey instanceID unit periodStart) r = false) :
    incrementAll ⟨q, pre ++ [periodRow instanceID unit periodStart n], nt⟩ unit instanceID
        periodStart counts =
      ⟨q, pre ++ [periodRow instanceID unit periodStart (n + (counts.sum : Nat))], nt⟩ := by
  induction counts generalizing n with
  | nil => simp [incrementAll]
  | cons c cs ih =>
    have hsum : ((c :: cs).sum : Nat) = c + cs.sum := by simp
    rw [hsum, Nat.cast_add] at hfit
    have h1 : n + (c : Int) ≤ maxInt64 := by
      have : (0 : Int) ≤ (cs.sum : Nat) := Int.natCast_nonneg _
      omega
    have hstep := IncrementUsage_last q pre nt unit instanceID periodStart n c hn h1 habs
    have hrec := ih (n + c) (by omega) (by omega)
    simp only [incrementAll, List.foldl_cons] at hrec ⊢
    rw [hstep, hrec, hsum, Nat.cast_add, add_assoc]

theorem incrementAll_absent (db : Tables) (unit : Nat) (instanceID : String) (periodStart : Int)
    (counts : List Nat)
    (habs : ∀ r ∈ db.periods, matchesConds (periodKey instanceID unit periodStart) r = false)
    (hfit : ((counts.sum : Nat) : Int) ≤ maxInt64) :
    incrementAll db unit instanceID periodStart counts =
      if counts.sum = 0 then db
      else ⟨db.quotas, db.periods ++ [periodRow instanceID unit periodStart (counts.sum : Nat)],
        db.notifications⟩ := by
  induction counts with
  | nil => simp [incrementAll]
  | cons c cs ih =>
    have hsum : ((c :: cs).sum : Nat) = c + cs.sum := by simp
    rw [hsum] at hfit ⊢
    rw [Nat.cast_add] at hfit
    have hcs : (0 : Int) ≤ (cs.sum : Nat) := Int.natCast_nonneg _
    by_cases hc : c = 0
    · subst hc
      have hrec := ih (by simpa using hfit)
      simp only [incrementAll, List.foldl_cons] at hrec ⊢
      simpa [IncrementUsage] using hrec
    · have h1 : (c : Int) ≤ maxInt64 := by omega
      have hneg : ¬ ((c : Int) < 0) := by omega
      have hstep : (IncrementUsage db unit instanceID periodStart c).db =
          ⟨db.quotas, db.periods ++ [periodRow instanceID unit periodStart c], db.notifications⟩ := by
        simp [IncrementUsage, hc, upsertUsage_absent instanceID unit periodStart c h1 db.periods habs,
          hneg]
      have hlast := incrementAll_last db.quotas db.periods db.notifications unit instanceID
        periodStart cs c (by omega) (by omega) habs
      have hne : ¬ (c + cs.sum = 0) := by omega
      simp only [incrementAll, List.foldl_cons] at hlast ⊢
      rw [hstep, hlast, if_neg hne, Nat.cast_add]

theorem storedUsage_appended (q pre nt : List Row) (unit : Nat) (instanceID : String)
    (periodStart : Int) (n : Int)
    (habs : ∀ r ∈ pre, matchesConds (periodKey instanceID unit periodStart) r = false) :
    storedUsage ⟨q, pre ++ [periodRow instanceID unit periodStart n], nt⟩ unit instanceID
      periodStart = some (Value.int n) := by
  have h1 : pre.find? (matchesConds (periodKey instanceID unit periodStart)) = none := by
    rw [List.find?_eq_none]
    intro r hr
    simp [habs r hr]
  simp [storedUsage, List.find?_append, h1, List.find?, matchesConds_periodRow,
    periodRow_get_usage]

theorem matchesConds_periodKey_iff (instanceID : String) (unit : Nat) (periodStart : Int)
    (r : Row) :
    matchesConds (periodKey instanceID unit periodStart) r = true ↔
      r.get "instance_id" = some (Value.text instanceID) ∧ r.get "unit" = some (Value.enum unit)
        ∧ r.get "start" = some (Value.timestamp periodStart) := by
  simp [matchesConds, periodKey, NewCond, QuotaPeriodColumnInstanceID, QuotaPeriodColumnUnit,
    QuotaPeriodColumnStart]

theorem matchesConds_other_key (instanceID instanceID' : String) (unit unit' : Nat)
    (periodStart periodStart' : Int)
    (hne : (instanceID', unit', periodStart') ≠ (instanceID, unit, periodStart)) (r : Row)
    (h : matchesConds (periodKey instanceID' unit' periodStart') r = true) :
    matchesConds (periodKey instanceID unit periodStart) r = false := by
  rw [matchesConds_periodKey_iff] at h
  obtain ⟨h1, h2, h3⟩ := h
  cases hm : matchesConds (periodKey instanceID unit periodStart) r with
  | false => rfl
  | true =>
    rw [matchesConds_periodKey_iff] at hm
    obtain ⟨m1, m2, m3⟩ := hm
    rw [h1] at m1
    rw [h2] at m2
    rw [h3] at m3
    simp only [Option.some.injEq, Value.text.injEq, Value.enum.injEq, Value.timestamp.injEq] at m1 m2 m3
    exact absurd (by rw [m1, m2, m3]) hne

theorem storedUsage_of_filter_eq (db db' : Tables) (instanceID instanceID' : String)
    (unit unit' : Nat) (periodStart periodStart' : Int)
    (hne : (instanceID', unit', periodStart') ≠ (instanceID, unit, periodStart))
    (h : db'.periods.filter (fun r => !matchesConds (periodKey instanceID unit periodStart) r) =
      db.periods.filter (fun r => !matchesConds (periodKey instanceID unit periodStart) r)) :
    storedUsage db' unit' instanceID' periodStart' = storedUsage db unit' instanceID' periodStart' := by
  have key : ∀ rows : List Row,
      rows.find? (matchesConds (periodKey instanceID' unit' periodStart')) =
        (rows.filter (fun r => !matchesConds (periodKey instanceID unit periodStart) r)).find?
          (matchesConds (periodKey instanceID' unit' periodStart')) := by
    intro rows
    rw [List.find?_filter]
    congr 1
    funext r
    cases hm : matchesConds (periodKey instanceID' unit' periodStart') r with
    | false => simp
    | true =>
      simp [matchesConds_other_key instanceID instanceID' unit unit' periodStart periodStart' hne r hm]
  unfold storedUsage
  rw [key db'.periods, key db.periods, h]

/-! ## The claims on IncrementUsage -/

/-- C2 (amended): for every finite sequence of `IncrementUsage` calls with
counts c1..cn on the same (instanceID, unit, periodStart) whose sum is at most
2^63 - 1, the largest value of the signed 64-bit usage column, starting from a
state with no row for that key: the final state is the starting state with one
row of usage c1 + ... + cn appended to the periods table when that sum is
positive, and the starting state itself when the sum is 0; so the usage stored
for the key is the sum (no row when it is 0), and the final state and stored
usage are the same for every permutation of the calls. -/
theorem incrementAll_stores_sum (db : Tables) (unit : Nat) (instanceID : String)
    (periodStart : Int) (counts : List Nat)
    (habs : db.periods.find? (matchesConds (periodKey instanceID unit periodStart)) = none)
    (hfit : ((counts.sum : Nat) : Int) ≤ 2 ^ 63 - 1) :
    storedUsage (incrementAll db unit instanceID periodStart counts) unit instanceID periodStart =
        (if counts.sum = 0 then none else some (Value.int (counts.sum : Nat)))
      ∧ incrementAll db unit instanceID periodStart counts =
        (if counts.sum = 0 then db
         else ⟨db.quotas, db.periods ++ [periodRow instanceID unit periodStart (counts.sum : Nat)],
           db.notifications⟩)
      ∧ ∀ counts' : List Nat, counts.Perm counts' →
          incrementAll db unit instanceID periodStart counts' =
            incrementAll db unit instanceID periodStart counts
          ∧ storedUsage (incrementAll db unit instanceID periodStart counts') unit instanceID
              periodStart =
            storedUsage (incrementAll db unit instanceID periodStart counts) unit instanceID
              periodStart := by
  have habs' : ∀ r ∈ db.periods, matchesConds (periodKey instanceID unit periodStart) r = false := by
    intro r hr
    have := (List.find?_eq_none.mp habs) r hr
    simpa using this
  have hmain := incrementAll_absent db unit instanceID periodStart counts habs' hfit
  refine ⟨?_, hmain, ?_⟩
  · rw [hmain]
    by_cases h0 : counts.sum = 0
    · simp only [h0, if_true]
      unfold storedUsage
      rw [habs]
    · simp only [h0, if_false]
      exact storedUsage_appended db.quotas db.periods db.notifications unit instanceID periodStart
        _ habs'
  · intro counts' hperm
    have hs : counts'.sum = counts.sum := hperm.symm.sum_eq
    have h2 := incrementAll_absent db unit instanceID periodStart counts' habs' (by rw [hs]; exact hfit)
    rw [hs] at h2
    have heq : incrementAll db unit instanceID periodStart counts' =
        incrementAll db unit instanceID periodStart counts := by rw [h2, hmain]
    exact ⟨heq, by rw [heq]⟩

/-- C2, witness of `incrementAll_stores_sum`: the counts 3, 0, 4 on an empty
table store the usage 7. -/
theorem incrementAll_stores_sum_witness :
    storedUsage (incrementAll ⟨[], [], []⟩ 1 "i1" 0 [3, 0, 4]) 1 "i1" 0 = some (Value.int 7) :=
  (incrementAll_stores_sum ⟨[], [], []⟩ 1 "i1" 0 [3, 0, 4] rfl (by decide)).1

/-- C2, counterexample: a single call with count 2^63 on an empty table fails
and stores nothing, so the stored usage is not the sum of the counts; and the
counts 5 and 2^63 - 1 store 5 in this order and 2^63 - 1 in the other. -/
theorem incrementAll_overflow :
    (IncrementUsage ⟨[], [], []⟩ 1 "i1" 0 (2 ^ 63)).err = some (incrementError 1)
    ∧ storedUsage (incrementAll ⟨[], [], []⟩ 1 "i1" 0 [2 ^ 63]) 1 "i1" 0 = none
    ∧ storedUsage (incrementAll ⟨[], [], []⟩ 1 "i1" 0 [5, 2 ^ 63 - 1]) 1 "i1" 0
        = some (Value.int 5)
    ∧ storedUsage (incrementAll ⟨[], [], []⟩ 1 "i1" 0 [2 ^ 63 - 1, 5]) 1 "i1" 0
        = some (Value.int (2 ^ 63 - 1)) := by
  refine ⟨?_, ?_, ?_, ?_⟩ <;> decide

/-- What a call of `IncrementUsage` with a positive count that returns no
error has done: it ran the one SQL statement and returns the usage then stored
for the key; rows not matched by the key, the usage of every other key and the
quota and notification tables are as before. -/
theorem IncrementUsage_of_no_error (db : Tables) (unit : Nat) (instanceID : String)
    (periodStart : Int) (count : Nat) (hpos : 0 < count)
    (hok : (IncrementUsage db unit instanceID periodStart count).err = none) :
    storedUsage (IncrementUsage db unit instanceID periodStart count).db unit instanceID
        periodStart =
        some (Value.int ((IncrementUsage db unit instanceID periodStart count).sum : Nat))
      ∧ (db.periods.find? (matchesConds (periodKey instanceID unit periodStart)) = none →
          (IncrementUsage db unit instanceID periodStart count).sum = count
          ∧ (IncrementUsage db unit instanceID periodStart count).db.periods =
              db.periods ++ [periodRow instanceID unit periodStart count])
      ∧ (∀ r, db.periods.find? (matchesConds (periodKey instanceID unit periodStart)) = some r →
          ∃ n : Int, storedUsage db unit instanceID periodStart = some (Value.int n)
            ∧ (((IncrementUsage db unit instanceID periodStart count).sum : Nat) : Int) = n + count)
      ∧ (IncrementUsage db unit instanceID periodStart count).db.periods.filter
            (fun r => !matchesConds (periodKey instanceID unit periodStart) r) =
          db.periods.filter (fun r => !matchesConds (periodKey instanceID unit periodStart) r)
      ∧ (∀ (instanceID' : String) (unit' : Nat) (periodStart' : Int),
          (instanceID', unit', periodStart') ≠ (instanceID, unit, periodStart) →
          storedUsage (IncrementUsage db unit instanceID periodStart count).db unit' instanceID'
              periodStart' =
            storedUsage db unit' instanceID' periodStart')
      ∧ (IncrementUsage db unit instanceID periodStart count).db.quotas = db.quotas
      ∧ (IncrementUsage db unit instanceID periodStart count).db.notifications = db.notifications
      ∧ (IncrementUsage db unit instanceID periodStart count).executed = [incrementQuotaStatement] := by
  have hc : count ≠ 0 := by omega
  cases hu : upsertUsage instanceID unit periodStart count db.periods with
  | none => simp [IncrementUsage, hc, hu] at hok
  | some res =>
    obtain ⟨rows, sum⟩ := res
    by_cases hneg : sum < 0
    · simp [IncrementUsage, hc, hu, hneg] at hok
    · have hres : IncrementUsage db unit instanceID periodStart count =
          ⟨sum.toNat, none, ⟨db.quotas, rows, db.notifications⟩, [incrementQuotaStatement]⟩ := by
        simp [IncrementUsage, hc, hu, hneg]
      have hcast : ((sum.toNat : Nat) : Int) = sum := Int.toNat_of_nonneg (by omega)
      obtain ⟨u1, ⟨r', u2, u3⟩, u4, u5, _⟩ :=
        upsertUsage_some instanceID unit periodStart count db.periods rows sum hu
      rw [hres]
      refine ⟨?_, ?_, ?_, u1, ?_, rfl, rfl, rfl⟩
      · simp only [storedUsage, u2, u3, hcast]
      · intro hnone
        obtain ⟨v1, v2⟩ := u4 hnone
        refine ⟨?_, v2⟩
        show sum.toNat = count
        rw [v1]
        simp
      · intro r hr
        obtain ⟨n, w1, w2⟩ := u5 r hr
        refine ⟨n, ?_, ?_⟩
        · simp only [storedUsage, hr, w1]
        · show ((sum.toNat : Nat) : Int) = n + count
          rw [hcast, w2]
      · intro instanceID' unit' periodStart' hne
        exact storedUsage_of_filter_eq db ⟨db.quotas, rows, db.notifications⟩ instanceID
          instanceID' unit unit' periodStart periodStart' hne u1

/-- The upsert on a table with a row of the key adds the count to the usage
of the first such row and creates no row. -/
theorem upsertUsage_present (instanceID : String) (unit : Nat) (periodStart : Int) (count : Int)
    (rows : List Row) (r : Row) (n : Int)
    (hfind : rows.find? (matchesConds (periodKey instanceID unit periodStart)) = some r)
    (hu : r.get QuotaPeriodColumnUsage = some (Value.int n)) (hfit : n + count ≤ maxInt64) :
    ∃ rows', upsertUsage instanceID unit periodStart count rows = some (rows', n + count)
      ∧ rows'.length = rows.length := by
  induction rows with
  | nil => simp at hfind
  | cons x rest ih =>
    by_cases hm : matchesConds (periodKey instanceID unit periodStart) x = true
    · have hx : x = r := by simpa [List.find?, hm] using hfind
      subst hx
      exact ⟨x.set QuotaPeriodColumnUsage (Value.int (n + count)) :: rest,
        by simp [upsertUsage, hm, hu, hfit], by simp⟩
    · have hm' : matchesConds (periodKey instanceID unit periodStart) x = false := by
        simpa using hm
      have hrest : rest.find? (matchesConds (periodKey instanceID unit periodStart)) = some r := by
        simpa [List.find?, hm'] using hfind
      obtain ⟨rest', h1, h2⟩ := ih hrest
      exact ⟨x :: rest', by simp [upsertUsage, hm', h1], by simp [h2]⟩

/-- C3: for every count > 0 and every table state, `IncrementUsage` returns the
resulting cumulative usage of the period row keyed (instanceID, unit,
periodStart).  When no row of the key exists and count fits the usage column,
the call succeeds, returns count and appends the row with usage = count.  When
a row of the key exists with usage n and n + count fits the column, the call
succeeds, returns n + count, stores n + count for the key and creates no row.
Whenever the call returns no error, it ran the one SQL statement, the value it
returns is the usage then stored for the key, the rows not matched by the key
and the usage stored for every other key are as before, and the quota and
notification tables are unchanged. -/
theorem IncrementUsage_returns_cumulative_usage (db : Tables) (unit : Nat) (instanceID : String)
    (periodStart : Int) (count : Nat) (hpos : 0 < count) :
    (db.periods.find? (matchesConds (periodKey instanceID unit periodStart)) = none →
        (count : Int) ≤ 2 ^ 63 - 1 →
        (IncrementUsage db unit instanceID periodStart count).err = none
        ∧ (IncrementUsage db unit instanceID periodStart count).sum = count
        ∧ (IncrementUsage db unit instanceID periodStart count).db.periods =
            db.periods ++ [periodRow instanceID unit periodStart count]
        ∧ storedUsage (IncrementUsage db unit instanceID periodStart count).db unit instanceID
            periodStart = some (Value.int count))
      ∧ (∀ n : Int, storedUsage db unit instanceID periodStart = some (Value.int n) →
          0 ≤ n + count → n + count ≤ 2 ^ 63 - 1 →
          (IncrementUsage db unit instanceID periodStart count).err = none
          ∧ (((IncrementUsage db unit instanceID periodStart count).sum : Nat) : Int) = n + count
          ∧ storedUsage (IncrementUsage db unit instanceID periodStart count).db unit instanceID
              periodStart = some (Value.int (n + count))
          ∧ (IncrementUsage db unit instanceID periodStart count).db.periods.length
              = db.periods.length)
      ∧ ((IncrementUsage db unit instanceID periodStart count).err = none →
          storedUsage (IncrementUsage db unit instanceID periodStart count).db unit instanceID
              periodStart =
            some (Value.int ((IncrementUsage db unit instanceID periodStart count).sum : Nat))
          ∧ (db.periods.find? (matchesConds (periodKey instanceID unit periodStart)) = none →
              (IncrementUsage db unit instanceID periodStart count).sum = count
              ∧ (IncrementUsage db unit instanceID periodStart count).db.periods =
                  db.periods ++ [periodRow instanceID unit periodStart count])
          ∧ (∀ r, db.periods.find? (matchesConds (periodKey instanceID unit periodStart)) = some r →
              ∃ n : Int, storedUsage db unit instanceID periodStart = some (Value.int n)
                ∧ (((IncrementUsage db unit instanceID periodStart count).sum : Nat) : Int)
                    = n + count)
          ∧ (IncrementUsage db unit instanceID periodStart count).db.periods.filter
                (fun r => !matchesConds (periodKey instanceID unit periodStart) r) =
              db.periods.filter (fun r => !matchesConds (periodKey instanceID unit periodStart) r)
          ∧ (∀ (instanceID' : String) (unit' : Nat) (periodStart' : Int),
              (instanceID', unit', periodStart') ≠ (instanceID, unit, periodStart) →
              storedUsage (IncrementUsage db unit instanceID periodStart count).db unit' instanceID'
                  periodStart' =
                storedUsage db unit' instanceID' periodStart')
          ∧ (IncrementUsage db unit instanceID periodStart count).db.quotas = db.quotas
          ∧ (IncrementUsage db unit instanceID periodStart count).db.notifications
              = db.notifications
          ∧ (IncrementUsage db unit instanceID periodStart count).executed
              = [incrementQuotaStatement]) := by
  have hc : count ≠ 0 := by omega
  refine ⟨?_, ?_, fun hok => IncrementUsage_of_no_error db unit instanceID periodStart count hpos hok⟩
  · intro habs hfit
    have habs' : ∀ r ∈ db.periods,
        matchesConds (periodKey instanceID unit periodStart) r = false := by
      intro r hr
      have := (List.find?_eq_none.mp habs) r hr
      simpa using this
    have hu := upsertUsage_absent instanceID unit periodStart count hfit db.periods habs'
    have hneg : ¬ ((count : Int) < 0) := by omega
    have hres : IncrementUsage db unit instanceID periodStart count =
        ⟨count, none, ⟨db.quotas, db.periods ++ [periodRow instanceID unit periodStart count],
          db.notifications⟩, [incrementQuotaStatement]⟩ := by
      simp [IncrementUsage, hc, hu, hneg]
    rw [hres]
    exact ⟨rfl, rfl, rfl,
      storedUsage_appended db.quotas db.periods db.notifications unit instanceID periodStart _ habs'⟩
  · intro n hn hnonneg hfit
    cases hfind : db.periods.find? (matchesConds (periodKey instanceID unit periodStart)) with
    | none => simp [storedUsage, hfind] at hn
    | some r =>
      have hget : r.get QuotaPeriodColumnUsage = some (Value.int n) := by
        simpa [storedUsage, hfind] using hn
      obtain ⟨rows', hu, hlen⟩ :=
        upsertUsage_present instanceID unit periodStart count db.periods r n hfind hget hfit
      have hneg : ¬ (n + (count : Int) < 0) := by omega
      have hres : IncrementUsage db unit instanceID periodStart count =
          ⟨(n + (count : Int)).toNat, none, ⟨db.quotas, rows', db.notifications⟩,
            [incrementQuotaStatement]⟩ := by
        simp [IncrementUsage, hc, hu, hneg]
      obtain ⟨_, ⟨r', u2, u3⟩, _⟩ :=
        upsertUsage_some instanceID unit periodStart count db.periods rows' (n + count) hu
      rw [hres]
      refine ⟨rfl, Int.toNat_of_nonneg hnonneg, ?_, hlen⟩
      simp only [storedUsage, u2, u3]

/-- C3, witness of `IncrementUsage_returns_cumulative_usage`: incrementing a
period row of usage 5 by 3 succeeds, returns 8 and stores 8 without creating
a row. -/
theorem IncrementUsage_returns_cumulative_usage_witness :
    0 < 3
      ∧ storedUsage ⟨[], [periodRow "i1" 1 0 5], []⟩ 1 "i1" 0 = some (Value.int 5)
      ∧ ((IncrementUsage ⟨[], [periodRow "i1" 1 0 5], []⟩ 1 "i1" 0 3).err = none
      ∧ (((IncrementUsage ⟨[], [periodRow "i1" 1 0 5], []⟩ 1 "i1" 0 3).sum : Nat) : Int)
          = 5 + ((3 : Nat) : Int)
      ∧ storedUsage (IncrementUsage ⟨[], [periodRow "i1" 1 0 5], []⟩ 1 "i1" 0 3).db 1 "i1" 0
          = some (Value.int (5 + ((3 : Nat) : Int)))
      ∧ (IncrementUsage ⟨[], [periodRow "i1" 1 0 5], []⟩ 1 "i1" 0 3).db.periods.length
          = (⟨[], [periodRow "i1" 1 0 5], []⟩ : Tables).periods.length)
      ∧ (IncrementUsage ⟨[], [periodRow "i1" 1 0 5], []⟩ 1 "i1" 0 3).sum = 8
      ∧ (IncrementUsage ⟨[], [periodRow "i1" 1 0 5], []⟩ 1 "i1" 0 3).db.periods
          = [periodRow "i1" 1 0 8] :=
  ⟨by decide, by decide,
   (IncrementUsage_returns_cumulative_usage ⟨[], [periodRow "i1" 1 0 5], []⟩ 1 "i1" 0 3
      (by decide)).2.1 5 (by decide) (by decide) (by decide),
   by decide, by decide⟩

/-- C4: for every unit, instanceID, periodStart and every table state,
`IncrementUsage` with count = 0 returns (0, no error), runs no statement,
and leaves the table state as it is: no period row is created and the usage
stored for every key is unchanged. -/
theorem IncrementUsage_zero_is_noop (db : Tables) (unit : Nat) (instanceID : String)
    (periodStart : Int) :
    (IncrementUsage db unit instanceID periodStart 0).sum = 0
      ∧ (IncrementUsage db unit instanceID periodStart 0).err = none
      ∧ (IncrementUsage db unit instanceID periodStart 0).executed = []
      ∧ (IncrementUsage db unit instanceID periodStart 0).db = db
      ∧ (IncrementUsage db unit instanceID periodStart 0).db.periods.length = db.periods.length
      ∧ ∀ (instanceID' : String) (unit' : Nat) (periodStart' : Int),
          storedUsage (IncrementUsage db unit instanceID periodStart 0).db unit' instanceID'
              periodStart' =
            storedUsage db unit' instanceID' periodStart' := by
  refine ⟨rfl, rfl, rfl, rfl, rfl, ?_⟩
  intro _ _ _
  rfl

/-! ## Quota-added, quota-removed, instance-removed -/

theorem reduceQuotaAdded_eq (e : AddedEvent) :
    reduceQuotaAdded (Event.quotaAdded e) =
      Except.ok ⟨e.Aggregate,
        quotaCreateSpec e ::
          e.Notifications.map (notificationCreateSpec e.Aggregate.InstanceID e.Unit)⟩ := by
  rfl

theorem reduceQuotaRemoved_eq (e : RemovedEvent) :
    reduceQuotaRemoved (Event.quotaRemoved e) =
      Except.ok ⟨e.Aggregate,
        [ deleteScopeSpec "periods" e.Aggregate.InstanceID e.Unit,
          deleteScopeSpec "notifications" e.Aggregate.InstanceID e.Unit,
          deleteScopeSpec "" e.Aggregate.InstanceID e.Unit ]⟩ := by
  rfl

theorem reduceInstanceRemoved_eq (e : InstanceRemovedEvent) :
    reduceInstanceRemoved (Event.instanceRemoved e) =
      Except.ok ⟨e.Aggregate,
        [ deleteInstanceSpec "periods" e.Aggregate.InstanceID,
          deleteInstanceSpec "notifications" e.Aggregate.InstanceID,
          deleteInstanceSpec "" e.Aggregate.InstanceID ]⟩ := by
  rfl

theorem newRow_notification (instanceID : String) (unit : Nat) (n : AddedEventNotification) :
    newRow (Init.get ⟨2, by decide⟩).columns (notificationCreateSpec instanceID unit n).cols =
      notificationRowSpec instanceID unit n := by
  rfl

theorem newRow_quota (e : AddedEvent) :
    newRow (Init.get ⟨0, by decide⟩).columns (quotaCreateSpec e).cols = quotaRowSpec e := by
  rfl

/-- C5: for every quota-added event with k >= 0 notifications,
`reduceQuotaAdded` returns without error a batch of exactly k+1 create
statements: the first on the quota table with the columns id, instance_id,
unit, amount, from_anchor, interval, limit_usage from the aggregate and
payload; the (i+1)-th on the notifications table for the i-th notification of
the payload with the columns instance_id, unit, id, call_url, percent, repeat;
no statement of the batch sets latest_due_period_start or next_due_threshold,
and the notification row a create statement makes holds null in both. -/
theorem reduceQuotaAdded_creates (e : AddedEvent) :
    reduceQuotaAdded (Event.quotaAdded e) =
        Except.ok ⟨e.Aggregate,
          quotaCreateSpec e ::
            e.Notifications.map (notificationCreateSpec e.Aggregate.InstanceID e.Unit)⟩
      ∧ (quotaCreateSpec e ::
            e.Notifications.map (notificationCreateSpec e.Aggregate.InstanceID e.Unit)).length
          = e.Notifications.length + 1
      ∧ (∀ i : Nat,
          (quotaCreateSpec e ::
              e.Notifications.map (notificationCreateSpec e.Aggregate.InstanceID e.Unit))[i + 1]?
            = (e.Notifications[i]?).map (notificationCreateSpec e.Aggregate.InstanceID e.Unit))
      ∧ tableName (quotaCreateSpec e).tableSuffix = "projections.quotas"
      ∧ (∀ n : AddedEventNotification,
          tableName (notificationCreateSpec e.Aggregate.InstanceID e.Unit n).tableSuffix
            = "projections.quotas_notifications")
      ∧ (∀ x ∈ quotaCreateSpec e ::
            e.Notifications.map (notificationCreateSpec e.Aggregate.InstanceID e.Unit),
          x.kind = ExecKind.create ∧
          ∀ c ∈ x.cols, c.Name ≠ "latest_due_period_start" ∧ c.Name ≠ "next_due_threshold")
      ∧ (∀ (mode : OnDuplicate) (n : AddedEventNotification),
          (applyStatement mode ⟨[], [], []⟩
              ⟨e.Aggregate, [notificationCreateSpec e.Aggregate.InstanceID e.Unit n]⟩).notifications
            = [notificationRowSpec e.Aggregate.InstanceID e.Unit n]
          ∧ (notificationRowSpec e.Aggregate.InstanceID e.Unit n).get "latest_due_period_start"
              = some Value.null
          ∧ (notificationRowSpec e.Aggregate.InstanceID e.Unit n).get "next_due_threshold"
              = some Value.null) := by
  refine ⟨rfl, by simp, ?_, ?_, ?_, ?_, ?_⟩
  · intro i
    simp
  · show tableName "" = "projections.quotas"
    decide
  · intro n
    show tableName "notifications" = "projections.quotas_notifications"
    decide
  · intro x hx
    rcases List.mem_cons.mp hx with h | h
    · subst h
      refine ⟨rfl, ?_⟩
      intro c hc
      simp only [quotaCreateSpec, List.mem_cons, List.mem_singleton, List.not_mem_nil, or_false] at hc
      rcases hc with h | h | h | h | h | h | h <;> subst h <;> simp
    · obtain ⟨n, _, hn⟩ := List.mem_map.mp h
      subst hn
      refine ⟨rfl, ?_⟩
      intro c hc
      simp only [notificationCreateSpec, List.mem_cons, List.mem_singleton, List.not_mem_nil,
        or_false] at hc
      rcases hc with h | h | h | h | h | h <;> subst h <;> simp
  · intro mode n
    refine ⟨?_, rfl, rfl⟩
    cases mode <;> rfl

theorem deleteRows_scope (instanceID : String) (unit : Nat) (rows : List Row) :
    deleteRows [⟨"instance_id", Value.text instanceID⟩, ⟨"unit", Value.enum unit⟩] rows =
      rows.filter (fun r => !inScope instanceID unit r) := by
  simp [deleteRows, matchesConds, inScope]

theorem deleteRows_instance (instanceID : String) (rows : List Row) :
    deleteRows [⟨"instance_id", Value.text instanceID⟩] rows =
      rows.filter (fun r => !ofInstance instanceID r) := by
  simp [deleteRows, matchesConds, ofInstance]

/-- The three deletes of a scope applied to a table state. -/
theorem applyStatement_deleteScope (mode : OnDuplicate) (db : Tables) (a : Aggregate)
    (instanceID : String) (unit : Nat) :
    applyStatement mode db ⟨a,
        [ deleteScopeSpec "periods" instanceID unit,
          deleteScopeSpec "notifications" instanceID unit,
          deleteScopeSpec "" instanceID unit ]⟩ =
      ⟨db.quotas.filter (fun r => !inScope instanceID unit r),
       db.periods.filter (fun r => !inScope instanceID unit r),
       db.notifications.filter (fun r => !inScope instanceID unit r)⟩ := by
  simp only [applyStatement, List.foldl, deleteScopeSpec]
  rw [show ("periods" : String) = quotaPeriodsTableSuffix from rfl, applyExec_periods,
    show ("notifications" : String) = quotaNotificationsTableSuffix from rfl,
    applyExec_notifications, applyExec_quotas]
  simp only [deleteRows_scope]

/-- The three deletes of an instance applied to a table state. -/
theorem applyStatement_deleteInstance (mode : OnDuplicate) (db : Tables) (a : Aggregate)
    (instanceID : String) :
    applyStatement mode db ⟨a,
        [ deleteInstanceSpec "periods" instanceID,
          deleteInstanceSpec "notifications" instanceID,
          deleteInstanceSpec "" instanceID ]⟩ =
      ⟨db.quotas.filter (fun r => !ofInstance instanceID r),
       db.periods.filter (fun r => !ofInstance instanceID r),
       db.notifications.filter (fun r => !ofInstance instanceID r)⟩ := by
  simp only [applyStatement, List.foldl, deleteInstanceSpec]
  rw [show ("periods" : String) = quotaPeriodsTableSuffix from rfl, applyExec_periods,
    show ("notifications" : String) = quotaNotificationsTableSuffix from rfl,
    applyExec_notifications, applyExec_quotas]
  simp only [deleteRows_instance]

/-- C6: for every quota-removed event for (instance I, unit U),
`reduceQuotaRemoved` returns without error a batch of exactly three delete
statements, on the periods table, the notifications table and the quota table
in this order, each matched by exactly the two conditions instance_id = I and
unit = U; applied to any table state the batch keeps, in each of the three
tables and in their order, exactly the rows that are not of (I, U): every row
of (I, U) is removed and every row of another unit or instance is unchanged. -/
theorem reduceQuotaRemoved_deletes_scope (e : RemovedEvent) (mode : OnDuplicate) (db : Tables) :
    reduceQuotaRemoved (Event.quotaRemoved e) =
        Except.ok ⟨e.Aggregate,
          [ deleteScopeSpec "periods" e.Aggregate.InstanceID e.Unit,
            deleteScopeSpec "notifications" e.Aggregate.InstanceID e.Unit,
            deleteScopeSpec "" e.Aggregate.InstanceID e.Unit ]⟩
      ∧ tableName "periods" = "projections.quotas_periods"
      ∧ tableName "notifications" = "projections.quotas_notifications"
      ∧ tableName "" = "projections.quotas"
      ∧ applyStatement mode db ⟨e.Aggregate,
          [ deleteScopeSpec "periods" e.Aggregate.InstanceID e.Unit,
            deleteScopeSpec "notifications" e.Aggregate.InstanceID e.Unit,
            deleteScopeSpec "" e.Aggregate.InstanceID e.Unit ]⟩ =
          ⟨db.quotas.filter (fun r => !inScope e.Aggregate.InstanceID e.Unit r),
           db.periods.filter (fun r => !inScope e.Aggregate.InstanceID e.Unit r),
           db.notifications.filter (fun r => !inScope e.Aggregate.InstanceID e.Unit r)⟩
      ∧ (∀ r : Row,
          (r ∈ (db.quotas.filter (fun r => !inScope e.Aggregate.InstanceID e.Unit r)) ↔
            r ∈ db.quotas ∧ ¬ (r.get "instance_id" = some (Value.text e.Aggregate.InstanceID)
              ∧ r.get "unit" = some (Value.enum e.Unit)))
          ∧ (r ∈ (db.periods.filter (fun r => !inScope e.Aggregate.InstanceID e.Unit r)) ↔
            r ∈ db.periods ∧ ¬ (r.get "instance_id" = some (Value.text e.Aggregate.InstanceID)
              ∧ r.get "unit" = some (Value.enum e.Unit)))
          ∧ (r ∈ (db.notifications.filter (fun r => !inScope e.Aggregate.InstanceID e.Unit r)) ↔
            r ∈ db.notifications ∧ ¬ (r.get "instance_id" = some (Value.text e.Aggregate.InstanceID)
              ∧ r.get "unit" = some (Value.enum e.Unit)))) := by
  refine ⟨rfl, by decide, by decide, by decide, applyStatement_deleteScope _ _ _ _ _, ?_⟩
  intro r
  simp only [List.mem_filter, inScope, Bool.not_eq_true', Bool.and_eq_false_iff,
    decide_eq_false_iff_not, not_and_or]
  simp

/-- C8: for every instance-removed event for instance I and every table state,
`reduceInstanceRemoved` returns without error a batch of exactly three delete
statements, on the periods table, the notifications table and the quota table
in this order, each matched by the single condition instance_id = I; applied
to a table state the batch keeps, in each of the three tables and in their
order, exactly the rows whose instance_id is not I: every row of instance I is
removed, whatever its unit, and every row of another instance is unchanged. -/
theorem reduceInstanceRemoved_deletes_instance (e : InstanceRemovedEvent) (mode : OnDuplicate)
    (db : Tables) :
    reduceInstanceRemoved (Event.instanceRemoved e) =
        Except.ok ⟨e.Aggregate,
          [ deleteInstanceSpec "periods" e.Aggregate.InstanceID,
            deleteInstanceSpec "notifications" e.Aggregate.InstanceID,
            deleteInstanceSpec "" e.Aggregate.InstanceID ]⟩
      ∧ tableName "periods" = "projections.quotas_periods"
      ∧ tableName "notifications" = "projections.quotas_notifications"
      ∧ tableName "" = "projections.quotas"
      ∧ applyStatement mode db ⟨e.Aggregate,
          [ deleteInstanceSpec "periods" e.Aggregate.InstanceID,
            deleteInstanceSpec "notifications" e.Aggregate.InstanceID,
            deleteInstanceSpec "" e.Aggregate.InstanceID ]⟩ =
          ⟨db.quotas.filter (fun r => !ofInstance e.Aggregate.InstanceID r),
           db.periods.filter (fun r => !ofInstance e.Aggregate.InstanceID r),
           db.notifications.filter (fun r => !ofInstance e.Aggregate.InstanceID r)⟩
      ∧ (∀ r : Row,
          (r ∈ (db.quotas.filter (fun r => !ofInstance e.Aggregate.InstanceID r)) ↔
            r ∈ db.quotas ∧ r.get "instance_id" ≠ some (Value.text e.Aggregate.InstanceID))
          ∧ (r ∈ (db.periods.filter (fun r => !ofInstance e.Aggregate.InstanceID r)) ↔
            r ∈ db.periods ∧ r.get "instance_id" ≠ some (Value.text e.Aggregate.InstanceID))
          ∧ (r ∈ (db.notifications.filter (fun r => !ofInstance e.Aggregate.InstanceID r)) ↔
            r ∈ db.notifications ∧ r.get "instance_id" ≠ some (Value.text e.Aggregate.InstanceID))) := by
  refine ⟨rfl, by decide, by decide, by decide, applyStatement_deleteInstance _ _ _ _, ?_⟩
  intro r
  simp [List.mem_filter, ofInstance]

/-! ## Applying the create statements of a quota-added event -/

theorem createRow_fresh (mode : OnDuplicate) (t : InitTable) (cols : List Column)
    (rows : List Row)
    (h : ∀ r ∈ rows, sameKey t.primaryKey (newRow t.columns cols) r = false) :
    createRow mode t cols rows = rows ++ [newRow t.columns cols] := by
  have hany : rows.any (sameKey t.primaryKey (newRow t.columns cols)) = false := by
    rw [List.any_eq_false]
    intro r hr
    simp [h r hr]
  simp [createRow, hany]

theorem createRow_dup (mode : OnDuplicate) (t : InitTable) (cols : List Column)
    (rows : List Row)
    (hex : ∃ r ∈ rows, sameKey t.primaryKey (newRow t.columns cols) r = true)
    (hfix : ∀ r ∈ rows, sameKey t.primaryKey (newRow t.columns cols) r = true →
      setCols cols r = r) :
    createRow mode t cols rows = rows := by
  have hany : rows.any (sameKey t.primaryKey (newRow t.columns cols)) = true := by
    rw [List.any_eq_true]
    exact hex
  cases mode with
  | ignore => simp [createRow, hany]
  | upsert =>
    simp only [createRow, hany, if_true]
    conv_rhs => rw [← List.map_id rows]
    apply List.map_congr_left
    intro r hr
    by_cases hk : sameKey t.primaryKey (newRow t.columns cols) r = true
    · simp [hk, hfix r hr hk]
    · simp [hk]

theorem sameKey_quota (e : AddedEvent) (r : Row) :
    sameKey (Init.get ⟨0, by decide⟩).primaryKey (quotaRowSpec e) r =
      inScope e.Aggregate.InstanceID e.Unit r := by
  have h1 : ∀ v : Value, decide (some v = r.get "instance_id") = decide (r.get "instance_id" = some v) :=
    fun v => by simp [eq_comm]
  have h2 : ∀ v : Value, decide (some v = r.get "unit") = decide (r.get "unit" = some v) :=
    fun v => by simp [eq_comm]
  simp [sameKey, Init, NewTable, NewPrimaryKey, QuotaColumnInstanceID, QuotaColumnUnit,
    quotaRowSpec, Row.get, inScope, h1, h2]

theorem sameKey_notification (instanceID : String) (unit : Nat) (n : AddedEventNotification)
    (r : Row) :
    sameKey (Init.get ⟨2, by decide⟩).primaryKey (notificationRowSpec instanceID unit n) r =
      (inScope instanceID unit r && decide (r.get "id" = some (Value.text n.ID))) := by
  have h1 : ∀ v : Value, decide (some v = r.get "instance_id") = decide (r.get "instance_id" = some v) :=
    fun v => by simp [eq_comm]
  have h2 : ∀ v : Value, decide (some v = r.get "unit") = decide (r.get "unit" = some v) :=
    fun v => by simp [eq_comm]
  have h3 : ∀ v : Value, decide (some v = r.get "id") = decide (r.get "id" = some v) :=
    fun v => by simp [eq_comm]
  simp [sameKey, Init, NewSuffixedTable, NewPrimaryKey, QuotaNotificationColumnInstanceID,
    QuotaNotificationColumnUnit, QuotaNotificationColumnID, notificationRowSpec, Row.get, inScope,
    h1, h2, h3, Bool.and_assoc]

theorem inScope_quotaRowSpec (e : AddedEvent) :
    inScope e.Aggregate.InstanceID e.Unit (quotaRowSpec e) = true := by
  simp [inScope, quotaRowSpec, Row.get]

theorem inScope_notificationRowSpec (instanceID : String) (unit : Nat)
    (n : AddedEventNotification) :
    inScope instanceID unit (notificationRowSpec instanceID unit n) = true := by
  simp [inScope, notificationRowSpec, Row.get]

theorem notificationRowSpec_get_id (instanceID : String) (unit : Nat)
    (n : AddedEventNotification) :
    (notificationRowSpec instanceID unit n).get "id" = some (Value.text n.ID) := by
  simp [notificationRowSpec, Row.get]

theorem setCols_quotaRowSpec (e : AddedEvent) :
    setCols (quotaCreateSpec e).cols (quotaRowSpec e) = quotaRowSpec e := by
  simp [setCols, quotaCreateSpec, quotaRowSpec, Row.set]

theorem setCols_notificationRowSpec (instanceID : String) (unit : Nat)
    (n : AddedEventNotification) :
    setCols (notificationCreateSpec instanceID unit n).cols (notificationRowSpec instanceID unit n) =
      notificationRowSpec instanceID unit n := by
  simp [setCols, notificationCreateSpec, notificationRowSpec, Row.set]

theorem applyExec_quotaCreate (mode : OnDuplicate) (db : Tables) (e : AddedEvent) :
    applyExec mode db (quotaCreateSpec e) =
      ⟨createRow mode (Init.get ⟨0, by decide⟩) (quotaCreateSpec e).cols db.quotas, db.periods,
        db.notifications⟩ := by
  rfl

theorem applyExec_notificationCreate (mode : OnDuplicate) (db : Tables) (instanceID : String)
    (unit : Nat) (n : AddedEventNotification) :
    applyExec mode db (notificationCreateSpec instanceID unit n) =
      ⟨db.quotas, db.periods,
        createRow mode (Init.get ⟨2, by decide⟩) (notificationCreateSpec instanceID unit n).cols
          db.notifications⟩ := by
  rfl

/-- Creating notifications whose keys are all absent and pairwise distinct
appends their rows in order. -/
theorem foldl_notificationCreate_fresh (mode : OnDuplicate) (instanceID : String) (unit : Nat)
    (ns : List AddedEventNotification) (db : Tables)
    (hfresh : ∀ r ∈ db.notifications, ∀ n ∈ ns,
      (inScope instanceID unit r && decide (r.get "id" = some (Value.text n.ID))) = false)
    (hnd : (ns.map (fun n => n.ID)).Nodup) :
    (ns.map (notificationCreateSpec instanceID unit)).foldl (applyExec mode) db =
      ⟨db.quotas, db.periods, db.notifications ++ ns.map (notificationRowSpec instanceID unit)⟩ := by
  induction ns generalizing db with
  | nil => simp
  | cons n rest ih =>
    rw [List.map_cons, List.nodup_cons] at hnd
    obtain ⟨hnotin, hnd'⟩ := hnd
    have hstep : applyExec mode db (notificationCreateSpec instanceID unit n) =
        ⟨db.quotas, db.periods, db.notifications ++ [notificationRowSpec instanceID unit n]⟩ := by
      rw [applyExec_notificationCreate, createRow_fresh, newRow_notification]
      intro r hr
      rw [newRow_notification, sameKey_notification]
      exact hfresh r hr n (List.mem_cons_self _ _)
    simp only [List.map_cons, List.foldl_cons]
    rw [hstep, ih _ ?_ hnd']
    · simp
    · intro r hr m hm
      simp only [List.mem_append, List.mem_singleton] at hr
      rcases hr with hr | hr
      · exact hfresh r hr m (List.mem_cons_of_mem _ hm)
      · subst hr
        have hne : n.ID ≠ m.ID := by
          intro heq
          apply hnotin
          rw [heq]
          exact List.mem_map.mpr ⟨m, hm, rfl⟩
        simp [notificationRowSpec_get_id, hne]

/-- Creating notifications that change nothing one by one changes nothing. -/
theorem foldl_notificationCreate_dup (mode : OnDuplicate) (instanceID : String) (unit : Nat)
    (ns : List AddedEventNotification) (db : Tables)
    (h : ∀ n ∈ ns,
      createRow mode (Init.get ⟨2, by decide⟩) (notificationCreateSpec instanceID unit n).cols
        db.notifications = db.notifications) :
    (ns.map (notificationCreateSpec instanceID unit)).foldl (applyExec mode) db = db := by
  induction ns with
  | nil => simp
  | cons n rest ih =>
    simp only [List.map_cons, List.foldl_cons]
    rw [applyExec_notificationCreate, h n (List.mem_cons_self _ _)]
    exact ih (fun m hm => h m (List.mem_cons_of_mem _ hm))

/-- The create statements of a quota-added event applied to a state with no
rows of its scope in the quota and notification tables. -/
theorem applyStatement_added_fresh (mode : OnDuplicate) (db : Tables) (e : AddedEvent)
    (hq : ∀ r ∈ db.quotas, inScope e.Aggregate.InstanceID e.Unit r = false)
    (hn : ∀ r ∈ db.notifications, inScope e.Aggregate.InstanceID e.Unit r = false)
    (hnd : (e.Notifications.map (fun n => n.ID)).Nodup) :
    applyStatement mode db ⟨e.Aggregate,
        quotaCreateSpec e ::
          e.Notifications.map (notificationCreateSpec e.Aggregate.InstanceID e.Unit)⟩ =
      ⟨db.quotas ++ [quotaRowSpec e], db.periods,
        db.notifications ++
          e.Notifications.map (notificationRowSpec e.Aggregate.InstanceID e.Unit)⟩ := by
  simp only [applyStatement, List.foldl_cons]
  have hstep : applyExec mode db (quotaCreateSpec e) =
      ⟨db.quotas ++ [quotaRowSpec e], db.periods, db.notifications⟩ := by
    rw [applyExec_quotaCreate, createRow_fresh, newRow_quota]
    intro r hr
    rw [newRow_quota, sameKey_quota]
    exact hq r hr
  rw [hstep, foldl_notificationCreate_fresh mode _ _ _ _ ?_ hnd]
  intro r hr n _
  simp [hn r hr]

/-- The create statements of a quota-added event applied to the state they
made from a state with no rows of the scope change nothing. -/
theorem applyStatement_added_again (mode : OnDuplicate) (db : Tables) (e : AddedEvent)
    (hq : ∀ r ∈ db.quotas, inScope e.Aggregate.InstanceID e.Unit r = false)
    (hn : ∀ r ∈ db.notifications, inScope e.Aggregate.InstanceID e.Unit r = false)
    (hnd : (e.Notifications.map (fun n => n.ID)).Nodup) :
    applyStatement mode
        ⟨db.quotas ++ [quotaRowSpec e], db.periods,
          db.notifications ++
            e.Notifications.map (notificationRowSpec e.Aggregate.InstanceID e.Unit)⟩
        ⟨e.Aggregate,
          quotaCreateSpec e ::
            e.Notifications.map (notificationCreateSpec e.Aggregate.InstanceID e.Unit)⟩ =
      ⟨db.quotas ++ [quotaRowSpec e], db.periods,
        db.notifications ++
          e.Notifications.map (notificationRowSpec e.Aggregate.InstanceID e.Unit)⟩ := by
  simp only [applyStatement, List.foldl_cons]
  have hstep : applyExec mode
      ⟨db.quotas ++ [quotaRowSpec e], db.periods,
        db.notifications ++
          e.Notifications.map (notificationRowSpec e.Aggregate.InstanceID e.Unit)⟩
      (quotaCreateSpec e) =
      ⟨db.quotas ++ [quotaRowSpec e], db.periods,
        db.notifications ++
          e.Notifications.map (notificationRowSpec e.Aggregate.InstanceID e.Unit)⟩ := by
    rw [applyExec_quotaCreate, createRow_dup]
    · refine ⟨quotaRowSpec e, by simp, ?_⟩
      rw [newRow_quota, sameKey_quota, inScope_quotaRowSpec]
    · intro r hr hk
      rw [newRow_quota, sameKey_quota] at hk
      simp only [List.mem_append, List.mem_singleton] at hr
      rcases hr with hr | hr
      · rw [hq r hr] at hk
        exact absurd hk (by decide)
      · subst hr
        exact setCols_quotaRowSpec e
  rw [hstep]
  apply foldl_notificationCreate_dup
  intro n hmem
  apply createRow_dup
  · refine ⟨notificationRowSpec e.Aggregate.InstanceID e.Unit n, ?_, ?_⟩
    · exact List.mem_append_right _ (List.mem_map.mpr ⟨n, hmem, rfl⟩)
    · rw [newRow_notification, sameKey_notification, inScope_notificationRowSpec,
        notificationRowSpec_get_id]
      simp
  · intro r hr hk
    rw [newRow_notification, sameKey_notification] at hk
    simp only [List.mem_append, List.mem_map] at hr
    rcases hr with hr | ⟨m, hm, hr⟩
    · rw [hn r hr] at hk
      simp at hk
    · subst hr
      rw [inScope_notificationRowSpec, notificationRowSpec_get_id] at hk
      have hid : m.ID = n.ID := by simpa using hk
      have hmn : m = n := List.inj_on_of_nodup_map hnd hm hmem hid
      subst hmn
      exact setCols_notificationRowSpec _ _ _

theorem filter_notificationRowSpec_id (instanceID : String) (unit : Nat)
    (ns : List AddedEventNotification) (hnd : (ns.map (fun n => n.ID)).Nodup)
    (n : AddedEventNotification) (hmem : n ∈ ns) :
    (ns.map (notificationRowSpec instanceID unit)).filter
        (fun r => inScope instanceID unit r && decide (r.get "id" = some (Value.text n.ID))) =
      [notificationRowSpec instanceID unit n] := by
  induction ns with
  | nil => cases hmem
  | cons m rest ih =>
    rw [List.map_cons, List.nodup_cons] at hnd
    obtain ⟨hnotin, hnd'⟩ := hnd
    have hrest : ∀ k ∈ rest, k.ID ≠ m.ID := by
      intro k hk heq
      apply hnotin
      rw [← heq]
      exact List.mem_map.mpr ⟨k, hk, rfl⟩
    rcases List.mem_cons.mp hmem with h | h
    · subst h
      have hnil : (rest.map (notificationRowSpec instanceID unit)).filter
          (fun r => inScope instanceID unit r && decide (r.get "id" = some (Value.text n.ID))) = [] := by
        rw [List.filter_eq_nil_iff]
        intro r hr
        obtain ⟨k, hk, rfl⟩ := List.mem_map.mp hr
        simp [notificationRowSpec_get_id, hrest k hk]
      simp [List.filter, inScope_notificationRowSpec, notificationRowSpec_get_id, hnil]
    · have hne : m.ID ≠ n.ID := fun heq => hrest n h heq.symm
      simp [List.filter, inScope_notificationRowSpec, notificationRowSpec_get_id, hne, ih hnd' h]

/-! ## The claims on the reducers -/

/-- C7: for every starting table state and every quota-added event for
(instance I, unit U), applying the statements of `reduceQuotaAdded` and then
the statements of `reduceQuotaRemoved` of a quota-removed event for the same
(I, U) leaves no row with (instance_id, unit) = (I, U) in the quota, period
and notification tables. -/
theorem added_then_removed_leaves_no_rows (mode : OnDuplicate) (db : Tables) (e : AddedEvent)
    (id typ : String) :
    reduceQuotaAdded (Event.quotaAdded e) =
        Except.ok ⟨e.Aggregate,
          quotaCreateSpec e ::
            e.Notifications.map (notificationCreateSpec e.Aggregate.InstanceID e.Unit)⟩
      ∧ reduceQuotaRemoved (Event.quotaRemoved ⟨⟨id, typ, e.Aggregate.InstanceID⟩, e.Unit⟩) =
        Except.ok ⟨⟨id, typ, e.Aggregate.InstanceID⟩,
          [ deleteScopeSpec "periods" e.Aggregate.InstanceID e.Unit,
            deleteScopeSpec "notifications" e.Aggregate.InstanceID e.Unit,
            deleteScopeSpec "" e.Aggregate.InstanceID e.Unit ]⟩
      ∧ ∀ r : Row,
          (r ∈ (applyStatement mode
                (applyStatement mode db ⟨e.Aggregate,
                  quotaCreateSpec e ::
                    e.Notifications.map (notificationCreateSpec e.Aggregate.InstanceID e.Unit)⟩)
                ⟨⟨id, typ, e.Aggregate.InstanceID⟩,
                  [ deleteScopeSpec "periods" e.Aggregate.InstanceID e.Unit,
                    deleteScopeSpec "notifications" e.Aggregate.InstanceID e.Unit,
                    deleteScopeSpec "" e.Aggregate.InstanceID e.Unit ]⟩).quotas
            ∨ r ∈ (applyStatement mode
                (applyStatement mode db ⟨e.Aggregate,
                  quotaCreateSpec e ::
                    e.Notifications.map (notificationCreateSpec e.Aggregate.InstanceID e.Unit)⟩)
                ⟨⟨id, typ, e.Aggregate.InstanceID⟩,
                  [ deleteScopeSpec "periods" e.Aggregate.InstanceID e.Unit,
                    deleteScopeSpec "notifications" e.Aggregate.InstanceID e.Unit,
                    deleteScopeSpec "" e.Aggregate.InstanceID e.Unit ]⟩).periods
            ∨ r ∈ (applyStatement mode
                (applyStatement mode db ⟨e.Aggregate,
                  quotaCreateSpec e ::
                    e.Notifications.map (notificationCreateSpec e.Aggregate.InstanceID e.Unit)⟩)
                ⟨⟨id, typ, e.Aggregate.InstanceID⟩,
                  [ deleteScopeSpec "periods" e.Aggregate.InstanceID e.Unit,
                    deleteScopeSpec "notifications" e.Aggregate.InstanceID e.Unit,
                    deleteScopeSpec "" e.Aggregate.InstanceID e.Unit ]⟩).notifications) →
          ¬ (r.get "instance_id" = some (Value.text e.Aggregate.InstanceID)
              ∧ r.get "unit" = some (Value.enum e.Unit)) := by
  refine ⟨rfl, rfl, ?_⟩
  intro r hr
  rw [applyStatement_deleteScope] at hr
  simp only [List.mem_filter] at hr
  have hs : inScope e.Aggregate.InstanceID e.Unit r = false := by
    rcases hr with h | h | h <;> simpa using h.2
  intro hboth
  simp [inScope, hboth.1, hboth.2] at hs

/-- C9: for every quota-added event for (instance I, unit U) whose
notifications have pairwise distinct ids, and every state with no rows of
(I, U) in the quota and notification tables, applying the statements of
`reduceQuotaAdded` twice gives the same table state as applying them once,
under either reading of create on a duplicate key: the state with the quota
row and one row per notification appended; it holds exactly one quota row of
(I, U), as many notification rows of (I, U) as the event has notifications,
and for each notification exactly one row of its id. -/
theorem reduceQuotaAdded_idempotent (mode : OnDuplicate) (db : Tables) (e : AddedEvent)
    (hq : ∀ r ∈ db.quotas, inScope e.Aggregate.InstanceID e.Unit r = false)
    (hn : ∀ r ∈ db.notifications, inScope e.Aggregate.InstanceID e.Unit r = false)
    (hnd : (e.Notifications.map (fun n => n.ID)).Nodup) :
    reduceQuotaAdded (Event.quotaAdded e) =
        Except.ok ⟨e.Aggregate,
          quotaCreateSpec e ::
            e.Notifications.map (notificationCreateSpec e.Aggregate.InstanceID e.Unit)⟩
      ∧ applyStatement mode
          (applyStatement mode db ⟨e.Aggregate,
            quotaCreateSpec e ::
              e.Notifications.map (notificationCreateSpec e.Aggregate.InstanceID e.Unit)⟩)
          ⟨e.Aggregate,
            quotaCreateSpec e ::
              e.Notifications.map (notificationCreateSpec e.Aggregate.InstanceID e.Unit)⟩
        = applyStatement mode db ⟨e.Aggregate,
            quotaCreateSpec e ::
              e.Notifications.map (notificationCreateSpec e.Aggregate.InstanceID e.Unit)⟩
      ∧ applyStatement mode db ⟨e.Aggregate,
            quotaCreateSpec e ::
              e.Notifications.map (notificationCreateSpec e.Aggregate.InstanceID e.Unit)⟩
        = ⟨db.quotas ++ [quotaRowSpec e], db.periods,
            db.notifications ++
              e.Notifications.map (notificationRowSpec e.Aggregate.InstanceID e.Unit)⟩
      ∧ (db.quotas ++ [quotaRowSpec e]).filter (inScope e.Aggregate.InstanceID e.Unit)
        = [quotaRowSpec e]
      ∧ (db.notifications ++
            e.Notifications.map (notificationRowSpec e.Aggregate.InstanceID e.Unit)).filter
          (inScope e.Aggregate.InstanceID e.Unit)
        = e.Notifications.map (notificationRowSpec e.Aggregate.InstanceID e.Unit)
      ∧ ∀ n ∈ e.Notifications,
          (db.notifications ++
              e.Notifications.map (notificationRowSpec e.Aggregate.InstanceID e.Unit)).filter
            (fun r => inScope e.Aggregate.InstanceID e.Unit r
              && decide (r.get "id" = some (Value.text n.ID)))
          = [notificationRowSpec e.Aggregate.InstanceID e.Unit n] := by
  have hfirst := applyStatement_added_fresh mode db e hq hn hnd
  have hagain := applyStatement_added_again mode db e hq hn hnd
  refine ⟨rfl, ?_, hfirst, ?_, ?_, ?_⟩
  · rw [hfirst, hagain]
  · have h0 : db.quotas.filter (inScope e.Aggregate.InstanceID e.Unit) = [] := by
      rw [List.filter_eq_nil_iff]
      intro r hr
      simp [hq r hr]
    simp [List.filter_append, h0, List.filter, inScope_quotaRowSpec]
  · have h0 : db.notifications.filter (inScope e.Aggregate.InstanceID e.Unit) = [] := by
      rw [List.filter_eq_nil_iff]
      intro r hr
      simp [hn r hr]
    have h1 : (e.Notifications.map (notificationRowSpec e.Aggregate.InstanceID e.Unit)).filter
        (inScope e.Aggregate.InstanceID e.Unit) =
        e.Notifications.map (notificationRowSpec e.Aggregate.InstanceID e.Unit) := by
      rw [List.filter_eq_self]
      intro r hr
      obtain ⟨k, _, rfl⟩ := List.mem_map.mp hr
      exact inScope_notificationRowSpec _ _ _
    rw [List.filter_append, h0, h1, List.nil_append]
  · intro n hmem
    have h0 : db.notifications.filter
        (fun r => inScope e.Aggregate.InstanceID e.Unit r
          && decide (r.get "id" = some (Value.text n.ID))) = [] := by
      rw [List.filter_eq_nil_iff]
      intro r hr
      simp [hn r hr]
    rw [List.filter_append, h0, List.nil_append]
    exact filter_notificationRowSpec_id _ _ _ hnd n hmem

/-- C9, witness of `reduceQuotaAdded_idempotent`: a quota with two
notifications added twice to the empty state. -/
theorem reduceQuotaAdded_idempotent_witness :
    applyStatement OnDuplicate.upsert ⟨[], [], []⟩
        ⟨⟨"q1", "quota", "i1"⟩,
          quotaCreateSpec ⟨⟨"q1", "quota", "i1"⟩, 1, 0, 3600, 1000, true,
              [⟨"n1", 80, true, "u1"⟩, ⟨"n2", 100, false, "u2"⟩]⟩ ::
            [⟨"n1", 80, true, "u1"⟩, ⟨"n2", 100, false, "u2"⟩].map
              (notificationCreateSpec "i1" 1)⟩
      = ⟨[] ++ [quotaRowSpec ⟨⟨"q1", "quota", "i1"⟩, 1, 0, 3600, 1000, true,
              [⟨"n1", 80, true, "u1"⟩, ⟨"n2", 100, false, "u2"⟩]⟩], [],
          [] ++ [⟨"n1", 80, true, "u1"⟩, ⟨"n2", 100, false, "u2"⟩].map
            (notificationRowSpec "i1" 1)⟩ :=
  (reduceQuotaAdded_idempotent OnDuplicate.upsert ⟨[], [], []⟩
    ⟨⟨"q1", "quota", "i1"⟩, 1, 0, 3600, 1000, true,
      [⟨"n1", 80, true, "u1"⟩, ⟨"n2", 100, false, "u2"⟩]⟩
    (fun _ h => absurd h (List.not_mem_nil _)) (fun _ h => absurd h (List.not_mem_nil _))
    (by decide)).2.2.1

/-- C10: each of `reduceQuotaAdded`, `reduceQuotaRemoved`,
`reduceQuotaNotificationDue` and `reduceInstanceRemoved` returns an error if
and only if the event is not of the payload type it expects; a result with an
error carries no statement and a result with a statement carries no error. -/
theorem reducers_error_iff_wrong_event_type (bits : Nat) (event : Event) :
    ((errorOf (reduceQuotaAdded event)).isSome ↔ ¬ ∃ e, event = Event.quotaAdded e)
      ∧ ((errorOf (reduceQuotaRemoved event)).isSome ↔ ¬ ∃ e, event = Event.quotaRemoved e)
      ∧ ((errorOf (reduceQuotaNotificationDue bits event)).isSome ↔
          ¬ ∃ e, event = Event.quotaNotificationDue e)
      ∧ ((errorOf (reduceInstanceRemoved event)).isSome ↔
          ¬ ∃ e, event = Event.instanceRemoved e)
      ∧ ∀ res ∈ [reduceQuotaAdded event, reduceQuotaRemoved event,
            reduceQuotaNotificationDue bits event, reduceInstanceRemoved event],
          ((errorOf res).isSome → statementOf res = none)
          ∧ ((statementOf res).isSome → errorOf res = none)
          ∧ ((errorOf res).isSome ∨ (statementOf res).isSome) := by
  refine ⟨?_, ?_, ?_, ?_, ?_⟩
  · cases event <;> simp [reduceQuotaAdded, assertAddedEvent, errorOf]
  · cases event <;> simp [reduceQuotaRemoved, assertRemovedEvent, errorOf]
  · cases event <;> simp [reduceQuotaNotificationDue, assertNotificationDueEvent, errorOf]
  · cases event <;> simp [reduceInstanceRemoved, assertInstanceRemovedEvent, errorOf]
  · intro res _
    cases res <;> simp [errorOf, statementOf]

/-! ## Notified, table layout, SQL text -/

/-- C11: for every event, `reduceQuotaNotified` returns a no-op statement, one
without any mutation, and no error; applying that statement to any table
state leaves the three tables unchanged. -/
theorem reduceQuotaNotified_is_noop (event : Event) (mode : OnDuplicate) (db : Tables) :
    reduceQuotaNotified event = Except.ok (NewNoOpStatement event.Aggregate)
      ∧ errorOf (reduceQuotaNotified event) = none
      ∧ (NewNoOpStatement event.Aggregate).Execute = []
      ∧ applyStatement mode db (NewNoOpStatement event.Aggregate) = db
      ∧ (applyStatement mode db (NewNoOpStatement event.Aggregate)).quotas = db.quotas
      ∧ (applyStatement mode db (NewNoOpStatement event.Aggregate)).periods = db.periods
      ∧ (applyStatement mode db (NewNoOpStatement event.Aggregate)).notifications
          = db.notifications := by
  refine ⟨rfl, rfl, rfl, rfl, rfl, rfl, rfl⟩

/-- C13, the code at the failing input: for a threshold type of 8, 16, 32 or
64 bits, a notification-due event carrying the largest threshold of the type
makes `reduceQuotaNotificationDue` write 99 to `next_due_threshold`, which is
neither the threshold plus 100 nor greater than the threshold. -/
theorem reduceQuotaNotificationDue_wraps_below_threshold :
    (∀ bits ∈ [8, 16, 32, 64],
      reduceQuotaNotificationDue bits
          (Event.quotaNotificationDue ⟨⟨"q1", "quota", "i1"⟩, 1, "n1", "url", 7, 2 ^ bits - 1, 0⟩) =
        Except.ok ⟨⟨"q1", "quota", "i1"⟩,
          [AddUpdateStatement
            [NewCol QuotaNotificationColumnLatestDuePeriodStart (Value.timestamp 7),
             NewCol QuotaNotificationColumnNextDueThreshold (Value.int 99)]
            [NewCond QuotaNotificationColumnInstanceID (Value.text "i1"),
             NewCond QuotaNotificationColumnUnit (Value.enum 1),
             NewCond QuotaNotificationColumnID (Value.text "n1")]
            quotaNotificationsTableSuffix]⟩)
      ∧ (99 : Int) < 65535 ∧ (99 : Int) ≠ 65535 + 100 := by
  refine ⟨?_, by decide, by decide⟩
  intro bits hbits
  simp only [List.mem_cons, List.mem_singleton, List.not_mem_nil, or_false] at hbits
  rcases hbits with h | h | h | h <;> subst h <;> rfl

/-- C16: `Name` is "projections.quotas" and `Init` declares exactly three
tables: the quota table with columns id, instance_id, unit, amount,
from_anchor, interval, limit_usage and primary key (instance_id, unit); the
table suffixed "periods" with columns instance_id, unit, start, usage and
primary key (instance_id, unit, start); the table suffixed "notifications"
with columns instance_id, unit, id, call_url, percent, repeat,
latest_due_period_start, next_due_threshold and primary key (instance_id,
unit, id); latest_due_period_start and next_due_threshold are the only
nullable columns. -/
theorem Name_and_Init_declare_layout :
    Name = "projections.quotas"
      ∧ Init.length = 3
      ∧ Init.map (fun t => (t.suffix, t.columns.map (fun c => c.Name), t.primaryKey)) =
        [ ("", ["id", "instance_id", "unit", "amount", "from_anchor", "interval", "limit_usage"],
            ["instance_id", "unit"]),
          ("periods", ["instance_id", "unit", "start", "usage"], ["instance_id", "unit", "start"]),
          ("notifications",
            ["instance_id", "unit", "id", "call_url", "percent", "repeat",
              "latest_due_period_start", "next_due_threshold"],
            ["instance_id", "unit", "id"]) ]
      ∧ Init.map (fun t => (t.columns.filter (fun c => c.nullable)).map (fun c => c.Name)) =
        [[], [], ["latest_due_period_start", "next_due_threshold"]]
      ∧ Init.map (fun t => tableName t.suffix) =
        ["projections.quotas", "projections.quotas_periods", "projections.quotas_notifications"] := by
  refine ⟨?_, ?_, ?_, ?_, ?_⟩ <;> decide

/-- C20: the SQL text of `incrementQuotaStatement` is built from the declared
schema: it inserts into `QuotaPeriodsProjectionTable`, which is
"projections.quotas_periods", the projection name, "_" and the periods suffix;
its column list is the four period column constants in the order in which
instanceID, unit, periodStart and count are bound; its conflict target is the
primary key `Init` declares for the periods table. -/
theorem incrementQuotaStatement_matches_schema :
    incrementQuotaStatement =
        "INSERT INTO " ++ QuotaPeriodsProjectionTable
          ++ " (" ++ ", ".intercalate
              [QuotaPeriodColumnInstanceID, QuotaPeriodColumnUnit, QuotaPeriodColumnStart,
                QuotaPeriodColumnUsage] ++ ")"
          ++ " VALUES ($1, $2, $3, $4) ON CONFLICT ("
          ++ ", ".intercalate ((Init.map (fun t => t.primaryKey)).getD 1 []) ++ ")"
          ++ " DO UPDATE SET " ++ QuotaPeriodColumnUsage ++ " = " ++ QuotaPeriodsProjectionTable
          ++ "." ++ QuotaPeriodColumnUsage ++ " + excluded." ++ QuotaPeriodColumnUsage
          ++ " RETURNING " ++ QuotaPeriodColumnUsage
      ∧ QuotaPeriodsProjectionTable = "projections.quotas_periods"
      ∧ QuotaPeriodsProjectionTable = Name ++ "_" ++ quotaPeriodsTableSuffix
      ∧ (Init.map (fun t => t.suffix)).getD 1 "" = quotaPeriodsTableSuffix
      ∧ (Init.map (fun t => t.primaryKey)).getD 1 [] =
          [QuotaPeriodColumnInstanceID, QuotaPeriodColumnUnit, QuotaPeriodColumnStart]
      ∧ (Init.map (fun t => t.columns.map (fun c => c.Name))).getD 1 [] =
          [QuotaPeriodColumnInstanceID, QuotaPeriodColumnUnit, QuotaPeriodColumnStart,
            QuotaPeriodColumnUsage]
      ∧ (∀ (instanceID : String) (unit : Nat) (periodStart : Int) (count : Int),
          periodRow instanceID unit periodStart count =
            [ (QuotaPeriodColumnInstanceID, Value.text instanceID),
              (QuotaPeriodColumnUnit, Value.enum unit),
              (QuotaPeriodColumnStart, Value.timestamp periodStart),
              (QuotaPeriodColumnUsage, Value.int count) ]
          ∧ (periodKey instanceID unit periodStart).map (fun c => c.Name) =
              (Init.map (fun t => t.primaryKey)).getD 1 []) := by
  refine ⟨by rfl, by decide, by decide, by decide, by decide, by decide, ?_⟩
  intro instanceID unit periodStart count
  exact ⟨rfl, rfl⟩

/-! ## Re-applying update and delete statements -/

theorem reduceQuotaNotificationDue_eq (bits : Nat) (e : NotificationDueEvent) :
    reduceQuotaNotificationDue bits (Event.quotaNotificationDue e) =
      Except.ok ⟨e.Aggregate,
        [dueUpdateSpec e.Aggregate.InstanceID e.Unit e.ID e.PeriodStart
          (((e.Threshold + 100) % 2 ^ bits : Nat) : Int)]⟩ := by
  rfl

theorem applyStatement_dueUpdate (mode : OnDuplicate) (db : Tables) (a : Aggregate)
    (instanceID : String) (unit : Nat) (id : String) (periodStart : Int) (nextDue : Int) :
    applyStatement mode db ⟨a, [dueUpdateSpec instanceID unit id periodStart nextDue]⟩ =
      ⟨db.quotas, db.periods,
        updateRows (dueUpdateSpec instanceID unit id periodStart nextDue).cols
          (dueUpdateSpec instanceID unit id periodStart nextDue).conds db.notifications⟩ := by
  simp only [applyStatement, List.foldl, dueUpdateSpec]
  rw [show ("notifications" : String) = quotaNotificationsTableSuffix from rfl,
    applyExec_notifications]

theorem setCols_due_idem (p t : Value) (r : Row) :
    setCols [⟨"latest_due_period_start", p⟩, ⟨"next_due_threshold", t⟩]
        (setCols [⟨"latest_due_period_start", p⟩, ⟨"next_due_threshold", t⟩] r) =
      setCols [⟨"latest_due_period_start", p⟩, ⟨"next_due_threshold", t⟩] r := by
  simp only [setCols, List.foldl]
  induction r with
  | nil => rfl
  | cons x rest ih =>
    obtain ⟨n, v⟩ := x
    simp only [Row.set, List.cons.injEq, Prod.mk.injEq, true_and]
    refine ⟨?_, ih⟩
    by_cases h1 : n = "latest_due_period_start"
    · subst h1
      simp
    · by_cases h2 : n = "next_due_threshold"
      · subst h2
        simp
      · simp [h1, h2]

theorem matchesConds_due_setCols (instanceID : String) (unit : Nat) (id : String)
    (periodStart : Int) (nextDue : Int) (r : Row) :
    matchesConds (dueUpdateSpec instanceID unit id periodStart nextDue).conds
        (setCols (dueUpdateSpec instanceID unit id periodStart nextDue).cols r) =
      matchesConds (dueUpdateSpec instanceID unit id periodStart nextDue).conds r := by
  simp [matchesConds, dueUpdateSpec, setCols_due_get]

theorem updateRows_due_idem (instanceID : String) (unit : Nat) (id : String)
    (periodStart : Int) (nextDue : Int) (rows : List Row) :
    updateRows (dueUpdateSpec instanceID unit id periodStart nextDue).cols
        (dueUpdateSpec instanceID unit id periodStart nextDue).conds
        (updateRows (dueUpdateSpec instanceID unit id periodStart nextDue).cols
          (dueUpdateSpec instanceID unit id periodStart nextDue).conds rows) =
      updateRows (dueUpdateSpec instanceID unit id periodStart nextDue).cols
        (dueUpdateSpec instanceID unit id periodStart nextDue).conds rows := by
  simp only [updateRows, List.map_map]
  apply List.map_congr_left
  intro r _
  simp only [Function.comp]
  by_cases hm : matchesConds (dueUpdateSpec instanceID unit id periodStart nextDue).conds r = true
  · simp only [hm, if_true, matchesConds_due_setCols]
    exact setCols_due_idem _ _ r
  · simp [hm]

theorem updateRows_no_match (cols : List Column) (conds : List Condition) (rows : List Row)
    (h : ∀ r ∈ rows, matchesConds conds r = false) :
    updateRows cols conds rows = rows := by
  unfold updateRows
  conv_rhs => rw [← List.map_id rows]
  apply List.map_congr_left
  intro r hr
  simp [h r hr]

theorem filter_not_idem (p : Row → Bool) (rows : List Row) :
    (rows.filter (fun r => !p r)).filter (fun r => !p r) = rows.filter (fun r => !p r) := by
  rw [List.filter_filter]
  congr 1
  funext r
  simp

theorem filter_not_no_match (p : Row → Bool) (rows : List Row) (h : ∀ r ∈ rows, p r = false) :
    rows.filter (fun r => !p r) = rows := by
  rw [List.filter_eq_self]
  intro r hr
  simp [h r hr]

/-- C12: for every table state and every notification-due, quota-removed or
instance-removed event, the reducer returns a statement, and applying that
statement twice in a row gives the same table state as applying it once; when
no row matches its conditions, applying it leaves the table state
unchanged. -/
theorem update_and_delete_statements_idempotent (bits : Nat) (mode : OnDuplicate) (db : Tables) :
    (∀ e : NotificationDueEvent,
      ∃ s, reduceQuotaNotificationDue bits (Event.quotaNotificationDue e) = Except.ok s
        ∧ applyStatement mode (applyStatement mode db s) s = applyStatement mode db s
        ∧ ((∀ r ∈ db.notifications,
              ¬ (r.get "instance_id" = some (Value.text e.Aggregate.InstanceID)
                ∧ r.get "unit" = some (Value.enum e.Unit)
                ∧ r.get "id" = some (Value.text e.ID))) →
            applyStatement mode db s = db))
      ∧ (∀ e : RemovedEvent,
        ∃ s, reduceQuotaRemoved (Event.quotaRemoved e) = Except.ok s
          ∧ applyStatement mode (applyStatement mode db s) s = applyStatement mode db s
          ∧ ((∀ r, r ∈ db.quotas ∨ r ∈ db.periods ∨ r ∈ db.notifications →
                ¬ (r.get "instance_id" = some (Value.text e.Aggregate.InstanceID)
                  ∧ r.get "unit" = some (Value.enum e.Unit))) →
              applyStatement mode db s = db))
      ∧ (∀ e : InstanceRemovedEvent,
        ∃ s, reduceInstanceRemoved (Event.instanceRemoved e) = Except.ok s
          ∧ applyStatement mode (applyStatement mode db s) s = applyStatement mode db s
          ∧ ((∀ r, r ∈ db.quotas ∨ r ∈ db.periods ∨ r ∈ db.notifications →
                r.get "instance_id" ≠ some (Value.text e.Aggregate.InstanceID)) →
              applyStatement mode db s = db)) := by
  refine ⟨?_, ?_, ?_⟩
  · intro e
    refine ⟨_, reduceQuotaNotificationDue_eq bits e, ?_, ?_⟩
    · rw [applyStatement_dueUpdate, applyStatement_dueUpdate, updateRows_due_idem]
    · intro hno
      rw [applyStatement_dueUpdate, updateRows_no_match]
      intro r hr
      have := hno r hr
      cases hm : matchesConds
          (dueUpdateSpec e.Aggregate.InstanceID e.Unit e.ID e.PeriodStart
            (((e.Threshold + 100) % 2 ^ bits : Nat) : Int)).conds r with
      | false => rfl
      | true =>
        exfalso
        apply this
        simpa [matchesConds, dueUpdateSpec] using hm
  · intro e
    refine ⟨_, reduceQuotaRemoved_eq e, ?_, ?_⟩
    · rw [applyStatement_deleteScope, applyStatement_deleteScope]
      simp only [filter_not_idem]
    · intro hno
      have hs : ∀ r, r ∈ db.quotas ∨ r ∈ db.periods ∨ r ∈ db.notifications →
          inScope e.Aggregate.InstanceID e.Unit r = false := by
        intro r hr
        have := hno r hr
        cases hm : inScope e.Aggregate.InstanceID e.Unit r with
        | false => rfl
        | true =>
          exfalso
          apply this
          simpa [inScope] using hm
      rw [applyStatement_deleteScope,
        filter_not_no_match _ _ (fun r hr => hs r (Or.inl hr)),
        filter_not_no_match _ _ (fun r hr => hs r (Or.inr (Or.inl hr))),
        filter_not_no_match _ _ (fun r hr => hs r (Or.inr (Or.inr hr)))]
  · intro e
    refine ⟨_, reduceInstanceRemoved_eq e, ?_, ?_⟩
    · rw [applyStatement_deleteInstance, applyStatement_deleteInstance]
      simp only [filter_not_idem]
    · intro hno
      have hs : ∀ r, r ∈ db.quotas ∨ r ∈ db.periods ∨ r ∈ db.notifications →
          ofInstance e.Aggregate.InstanceID r = false := by
        intro r hr
        have := hno r hr
        simpa [ofInstance] using this
      rw [applyStatement_deleteInstance,
        filter_not_no_match _ _ (fun r hr => hs r (Or.inl hr)),
        filter_not_no_match _ _ (fun r hr => hs r (Or.inr (Or.inl hr))),
        filter_not_no_match _ _ (fun r hr => hs r (Or.inr (Or.inr hr)))]

/-! ## Monotone usage and error handling of IncrementUsage -/

/-- A successful upsert with a count that is not negative keeps every row in
its place, with all its columns but `usage`, and does not lower its usage. -/
theorem upsertUsage_rows_monotone (instanceID : String) (unit : Nat) (periodStart : Int)
    (count : Int) (hc : 0 ≤ count) (rows rows' : List Row) (sum : Int)
    (h : upsertUsage instanceID unit periodStart count rows = some (rows', sum)) :
    ∀ (i : Nat) (r : Row), rows[i]? = some r →
      ∃ r', rows'[i]? = some r'
        ∧ (∀ c : String, c ≠ "usage" → r'.get c = r.get c)
        ∧ (∀ n : Int, r.get "usage" = some (Value.int n) →
            ∃ m : Int, r'.get "usage" = some (Value.int m) ∧ n ≤ m) := by
  induction rows generalizing rows' sum with
  | nil =>
    intro i r hr
    simp at hr
  | cons x rest ih =>
    intro i r hr
    by_cases hm : matchesConds (periodKey instanceID unit periodStart) x = true
    · simp only [upsertUsage, hm, if_true] at h
      cases hu : x.get QuotaPeriodColumnUsage with
      | none => simp [hu] at h
      | some v =>
        cases v with
        | int n =>
          by_cases hfit : n + count ≤ maxInt64
          · simp only [hu, hfit, if_true, Option.some.injEq, Prod.mk.injEq] at h
            obtain ⟨h1, _⟩ := h
            subst h1
            cases i with
            | zero =>
              simp only [List.getElem?_cons_zero, Option.some.injEq] at hr
              subst hr
              refine ⟨x.set "usage" (Value.int (n + count)), by simp [QuotaPeriodColumnUsage], ?_, ?_⟩
              · intro c hne
                exact Row.get_set_of_ne _ _ _ _ hne
              · intro k hk
                have hu' : x.get "usage" = some (Value.int n) := hu
                rw [hu'] at hk
                simp only [Option.some.injEq, Value.int.injEq] at hk
                subst hk
                refine ⟨n + count, ?_, by omega⟩
                rw [Row.get_set_self, hu']
                rfl
            | succ j =>
              simp only [List.getElem?_cons_succ] at hr
              exact ⟨r, by simp [hr], fun _ _ => rfl, fun k hk => ⟨k, hk, le_refl _⟩⟩
          · simp [hu, hfit] at h
        | _ => simp [hu] at h
    · have hm' : matchesConds (periodKey instanceID unit periodStart) x = false := by
        simpa using hm
      simp only [upsertUsage, hm'] at h
      cases hrec : upsertUsage instanceID unit periodStart count rest with
      | none => simp [hrec] at h
      | some res =>
        obtain ⟨rest', s⟩ := res
        simp only [hrec, Bool.false_eq_true, if_false, Option.some.injEq, Prod.mk.injEq] at h
        obtain ⟨h1, _⟩ := h
        subst h1
        cases i with
        | zero =>
          simp only [List.getElem?_cons_zero, Option.some.injEq] at hr
          subst hr
          exact ⟨x, by simp, fun _ _ => rfl, fun k hk => ⟨k, hk, le_refl _⟩⟩
        | succ j =>
          simp only [List.getElem?_cons_succ] at hr
          obtain ⟨r', g1, g2, g3⟩ := ih rest' s hrec j r hr
          exact ⟨r', by simp [g1], g2, g3⟩

/-- C14: for every table state and every call of `IncrementUsage` with any
count, every row of the periods table before the call is at the same place
after the call, with all its columns other than `usage` as before, and if it
held the usage n it holds a usage m with n <= m: the stored usage never
decreases. -/
theorem IncrementUsage_usage_never_decreases (db : Tables) (unit : Nat) (instanceID : String)
    (periodStart : Int) (count : Nat) :
    ∀ (i : Nat) (r : Row), db.periods[i]? = some r →
      ∃ r', (IncrementUsage db unit instanceID periodStart count).db.periods[i]? = some r'
        ∧ (∀ c : String, c ≠ "usage" → r'.get c = r.get c)
        ∧ (∀ n : Int, r.get "usage" = some (Value.int n) →
            ∃ m : Int, r'.get "usage" = some (Value.int m) ∧ n ≤ m) := by
  intro i r hr
  have hsame : ∃ r', db.periods[i]? = some r'
      ∧ (∀ c : String, c ≠ "usage" → r'.get c = r.get c)
      ∧ (∀ n : Int, r.get "usage" = some (Value.int n) →
          ∃ m : Int, r'.get "usage" = some (Value.int m) ∧ n ≤ m) :=
    ⟨r, hr, fun _ _ => rfl, fun n hn => ⟨n, hn, le_refl _⟩⟩
  by_cases hc : count = 0
  · subst hc
    exact hsame
  · cases hu : upsertUsage instanceID unit periodStart count db.periods with
    | none =>
      have hres : (IncrementUsage db unit instanceID periodStart count).db = db := by
        simp [IncrementUsage, hc, hu]
      rw [hres]
      exact hsame
    | some res =>
      obtain ⟨rows, sum⟩ := res
      have hres : (IncrementUsage db unit instanceID periodStart count).db.periods = rows := by
        by_cases hneg : sum < 0
        · simp [IncrementUsage, hc, hu, hneg]
        · simp [IncrementUsage, hc, hu, hneg]
      rw [hres]
      exact upsertUsage_rows_monotone instanceID unit periodStart count (Int.natCast_nonneg _)
        db.periods rows sum hu i r hr

/-- C14, witness of `IncrementUsage_usage_never_decreases`: the row of usage 5
is still the first row after an increment by 3, with a usage of at least 5. -/
theorem IncrementUsage_usage_never_decreases_witness :
    (⟨[], [periodRow "i1" 1 0 5], []⟩ : Tables).periods[0]? = some (periodRow "i1" 1 0 5)
      ∧ ∃ r', (IncrementUsage ⟨[], [periodRow "i1" 1 0 5], []⟩ 1 "i1" 0 3).db.periods[0]? = some r'
        ∧ (∀ c : String, c ≠ "usage" → r'.get c = (periodRow "i1" 1 0 5).get c)
        ∧ (∀ n : Int, (periodRow "i1" 1 0 5).get "usage" = some (Value.int n) →
            ∃ m : Int, r'.get "usage" = some (Value.int m) ∧ n ≤ m) :=
  ⟨rfl,
   IncrementUsage_usage_never_decreases ⟨[], [periodRow "i1" 1 0 5], []⟩ 1 "i1" 0 3 0
     (periodRow "i1" 1 0 5) rfl⟩

/-- C15: for every count > 0 and every behaviour of the database: when the
query fails, `IncrementUsage` returns sum = 0 with the internal error
"PROJ-SJL3h" whose message holds the unit as a decimal number; when the query
succeeds it returns the scanned sum and no error; so it never returns a
non-zero sum together with an error.  On the table model `IncrementUsage` is
this body run on the upsert of `incrementQuotaStatement`. -/
theorem IncrementUsage_error_handling
    (run : Tables → String → Nat → Int → Nat → ScanResult × Tables) (db : Tables) (unit : Nat)
    (instanceID : String) (periodStart : Int) (count : Nat) (hpos : 0 < count) :
    ((run db instanceID unit periodStart count).1 = ScanResult.failed →
        (IncrementUsageWith run db unit instanceID periodStart count).sum = 0
        ∧ (IncrementUsageWith run db unit instanceID periodStart count).err =
            some (Error.internal "PROJ-SJL3h"
              ("incrementing usage for unit " ++ toString unit
                ++ " failed for at least one quota period")))
      ∧ (∀ sum : Nat, (run db instanceID unit periodStart count).1 = ScanResult.scanned sum →
          (IncrementUsageWith run db unit instanceID periodStart count).sum = sum
          ∧ (IncrementUsageWith run db unit instanceID periodStart count).err = none)
      ∧ ((IncrementUsageWith run db unit instanceID periodStart count).err ≠ none →
          (IncrementUsageWith run db unit instanceID periodStart count).sum = 0)
      ∧ IncrementUsage db unit instanceID periodStart count =
          IncrementUsageWith runIncrementQuotaStatement db unit instanceID periodStart count
      ∧ ((IncrementUsage db unit instanceID periodStart count).err ≠ none →
          (IncrementUsage db unit instanceID periodStart count).sum = 0
          ∧ (IncrementUsage db unit instanceID periodStart count).err =
              some (Error.internal "PROJ-SJL3h"
                ("incrementing usage for unit " ++ toString unit
                  ++ " failed for at least one quota period"))) := by
  have hc : count ≠ 0 := by omega
  have hgen : ∀ run' : Tables → String → Nat → Int → Nat → ScanResult × Tables,
      ((run' db instanceID unit periodStart count).1 = ScanResult.failed →
        (IncrementUsageWith run' db unit instanceID periodStart count).sum = 0
        ∧ (IncrementUsageWith run' db unit instanceID periodStart count).err =
            some (incrementError unit))
      ∧ (∀ sum : Nat, (run' db instanceID unit periodStart count).1 = ScanResult.scanned sum →
          (IncrementUsageWith run' db unit instanceID periodStart count).sum = sum
          ∧ (IncrementUsageWith run' db unit instanceID periodStart count).err = none)
      ∧ ((IncrementUsageWith run' db unit instanceID periodStart count).err ≠ none →
          (IncrementUsageWith run' db unit instanceID periodStart count).sum = 0
          ∧ (IncrementUsageWith run' db unit instanceID periodStart count).err =
              some (incrementError unit)) := by
    intro run'
    cases hrun : run' db instanceID unit periodStart count with
    | mk res db' =>
      cases res with
      | failed => simp [IncrementUsageWith, hc, hrun]
      | scanned s => simp [IncrementUsageWith, hc, hrun]
  have heq : IncrementUsage db unit instanceID periodStart count =
      IncrementUsageWith runIncrementQuotaStatement db unit instanceID periodStart count := by
    simp only [IncrementUsage, IncrementUsageWith, runIncrementQuotaStatement, hc, if_false]
    cases hu : upsertUsage instanceID unit periodStart count db.periods with
    | none => rfl
    | some res =>
      obtain ⟨rows, sum⟩ := res
      by_cases hneg : sum < 0
      · simp [hneg]
      · simp [hneg]
  obtain ⟨g1, g2, g3⟩ := hgen run
  refine ⟨g1, g2, fun h => (g3 h).1, heq, ?_⟩
  rw [heq]
  exact (hgen runIncrementQuotaStatement).2.2

/-- C15, witness of `IncrementUsage_error_handling`: a count of 2^63 on the
empty table makes the query fail, and the call returns 0 with the internal
error naming unit 1. -/
theorem IncrementUsage_error_handling_witness :
    0 < 2 ^ 63
      ∧ (runIncrementQuotaStatement ⟨[], [], []⟩ "i1" 1 0 (2 ^ 63)).1 = ScanResult.failed
      ∧ (IncrementUsageWith runIncrementQuotaStatement ⟨[], [], []⟩ 1 "i1" 0 (2 ^ 63)).sum = 0
      ∧ (IncrementUsageWith runIncrementQuotaStatement ⟨[], [], []⟩ 1 "i1" 0 (2 ^ 63)).err =
          some (Error.internal "PROJ-SJL3h"
            ("incrementing usage for unit " ++ toString 1
              ++ " failed for at least one quota period")) :=
  ⟨by decide, by decide,
   (IncrementUsage_error_handling runIncrementQuotaStatement ⟨[], [], []⟩ 1 "i1" 0 (2 ^ 63)
      (by decide)).1 (by decide)⟩

/-! ## The dispatch table -/

theorem reducers_pairwise_distinct (bits : Nat) :
    reduceInstanceRemoved ≠ reduceQuotaAdded
      ∧ reduceInstanceRemoved ≠ reduceQuotaRemoved
      ∧ reduceInstanceRemoved ≠ reduceQuotaNotificationDue bits
      ∧ reduceInstanceRemoved ≠ reduceQuotaNotified
      ∧ reduceQuotaAdded ≠ reduceQuotaRemoved
      ∧ reduceQuotaAdded ≠ reduceQuotaNotificationDue bits
      ∧ reduceQuotaAdded ≠ reduceQuotaNotified
      ∧ reduceQuotaRemoved ≠ reduceQuotaNotificationDue bits
      ∧ reduceQuotaRemoved ≠ reduceQuotaNotified
      ∧ reduceQuotaNotificationDue bits ≠ reduceQuotaNotified := by
  have a : Aggregate := ⟨"", "", ""⟩
  refine ⟨?_, ?_, ?_, ?_, ?_, ?_, ?_, ?_, ?_, ?_⟩
  · intro h
    have := congrArg errorOf (congrFun h (Event.instanceRemoved ⟨a⟩))
    simp [reduceInstanceRemoved, assertInstanceRemovedEvent, reduceQuotaAdded, assertAddedEvent,
      errorOf] at this
  · intro h
    have := congrArg errorOf (congrFun h (Event.instanceRemoved ⟨a⟩))
    simp [reduceInstanceRemoved, assertInstanceRemovedEvent, reduceQuotaRemoved,
      assertRemovedEvent, errorOf] at this
  · intro h
    have := congrArg errorOf (congrFun h (Event.instanceRemoved ⟨a⟩))
    simp [reduceInstanceRemoved, assertInstanceRemovedEvent, reduceQuotaNotificationDue,
      assertNotificationDueEvent, errorOf] at this
  · intro h
    have := congrArg errorOf (congrFun h (Event.other a ""))
    simp [reduceInstanceRemoved, assertInstanceRemovedEvent, reduceQuotaNotified, errorOf] at this
  · intro h
    have := congrArg errorOf (congrFun h (Event.quotaRemoved ⟨a, 0⟩))
    simp [reduceQuotaAdded, assertAddedEvent, reduceQuotaRemoved, assertRemovedEvent,
      errorOf] at this
  · intro h
    have := congrArg errorOf (congrFun h (Event.quotaAdded ⟨a, 0, 0, 0, 0, false, []⟩))
    simp [reduceQuotaAdded, assertAddedEvent, reduceQuotaNotificationDue,
      assertNotificationDueEvent, errorOf] at this
  · intro h
    have := congrArg errorOf (congrFun h (Event.other a ""))
    simp [reduceQuotaAdded, assertAddedEvent, reduceQuotaNotified, errorOf] at this
  · intro h
    have := congrArg errorOf (congrFun h (Event.quotaRemoved ⟨a, 0⟩))
    simp [reduceQuotaRemoved, assertRemovedEvent, reduceQuotaNotificationDue,
      assertNotificationDueEvent, errorOf] at this
  · intro h
    have := congrArg errorOf (congrFun h (Event.other a ""))
    simp [reduceQuotaRemoved, assertRemovedEvent, reduceQuotaNotified, errorOf] at this
  · intro h
    have := congrArg errorOf (congrFun h (Event.other a ""))
    simp [reduceQuotaNotificationDue, assertNotificationDueEvent, reduceQuotaNotified,
      errorOf] at this

/-- C17: when the event-type constants of the quota aggregate are pairwise
distinct and the two aggregate-type constants differ, `Reducers` is a dispatch
table of exactly five (aggregate type, event type) entries, none listed twice:
(instance, instance-removed) gives `reduceInstanceRemoved`, and under the
quota aggregate added gives `reduceQuotaAdded`, removed `reduceQuotaRemoved`,
notification-due `reduceQuotaNotificationDue` and notified
`reduceQuotaNotified`; the five reducers of the entries are pairwise
different functions, so each is reached from exactly one entry. -/
theorem Reducers_dispatch_table (bits : Nat) (names : EventTypes)
    (hevents : [names.AddedEventType, names.RemovedEventType, names.NotificationDueEventType,
      names.NotifiedEventType].Nodup)
    (haggregates : names.instanceAggregateType ≠ names.quotaAggregateType) :
    dispatchPairs (Reducers bits names) =
        [ (names.instanceAggregateType, names.InstanceRemovedEventType),
          (names.quotaAggregateType, names.AddedEventType),
          (names.quotaAggregateType, names.RemovedEventType),
          (names.quotaAggregateType, names.NotificationDueEventType),
          (names.quotaAggregateType, names.NotifiedEventType) ]
      ∧ (dispatchPairs (Reducers bits names)).length = 5
      ∧ (dispatchPairs (Reducers bits names)).Nodup
      ∧ dispatch (Reducers bits names) names.instanceAggregateType names.InstanceRemovedEventType
          = some reduceInstanceRemoved
      ∧ dispatch (Reducers bits names) names.quotaAggregateType names.AddedEventType
          = some reduceQuotaAdded
      ∧ dispatch (Reducers bits names) names.quotaAggregateType names.RemovedEventType
          = some reduceQuotaRemoved
      ∧ dispatch (Reducers bits names) names.quotaAggregateType names.NotificationDueEventType
          = some (reduceQuotaNotificationDue bits)
      ∧ dispatch (Reducers bits names) names.quotaAggregateType names.NotifiedEventType
          = some reduceQuotaNotified
      ∧ dispatchReducers (Reducers bits names) =
          [ reduceInstanceRemoved, reduceQuotaAdded, reduceQuotaRemoved,
            reduceQuotaNotificationDue bits, reduceQuotaNotified ]
      ∧ (dispatchReducers (Reducers bits names)).Nodup := by
  obtain ⟨d1, d2, d3, d4, d5, d6, d7, d8, d9, d10⟩ := reducers_pairwise_distinct bits
  simp only [List.nodup_cons, List.mem_cons, List.mem_singleton, List.not_mem_nil, or_false,
    not_or, not_false_eq_true, List.nodup_nil, and_true] at hevents
  obtain ⟨⟨e1, e2, e3⟩, ⟨e4, e5⟩, e6⟩ := hevents
  have hagg' : ¬ names.quotaAggregateType = names.instanceAggregateType :=
    fun h => haggregates h.symm
  refine ⟨rfl, rfl, ?_, ?_, ?_, ?_, ?_, ?_, rfl, ?_⟩
  · simp [dispatchPairs, Reducers, haggregates, e1, e2, e3, e4, e5, e6]
  · simp [dispatch, Reducers]
  · simp [dispatch, Reducers, haggregates]
  · simp [dispatch, Reducers, haggregates, e1]
  · simp [dispatch, Reducers, haggregates, e2, e4]
  · simp [dispatch, Reducers, haggregates, e3, e5, e6]
  · simp [dispatchReducers, Reducers, d1, d2, d3, d4, d5, d6, d7, d8, d9, d10]

/-- C17, witness of `Reducers_dispatch_table`: with the type names "instance",
"instance.removed", "quota", "quota.added", "quota.removed",
"quota.notificationdue" and "quota.notified" no pair of the table is listed
twice. -/
theorem Reducers_dispatch_table_witness :
    (dispatchPairs (Reducers 16
      ⟨"instance", "instance.removed", "quota", "quota.added", "quota.removed",
        "quota.notificationdue", "quota.notified"⟩)).Nodup :=
  (Reducers_dispatch_table 16
    ⟨"instance", "instance.removed", "quota", "quota.added", "quota.removed",
      "quota.notificationdue", "quota.notified"⟩ (by decide) (by decide)).2.2.1

end Quota

namespace Pseudo

/-- C18: for every timestamp, every triggering event or none, and every list
of instance ids, `NewScheduledEvent` returns an event with that timestamp,
those instance ids in the same order and that triggering event, whose event
type is `ScheduledEventType`, "pseudo.timestamp", which starts with the prefix
"pseudo.". -/
theorem NewScheduledEvent_fields (aggregate : Quota.Aggregate) (timestamp : Int)
    (triggeringEvent : Option Quota.Event) (instanceIDs : List String) :
    (NewScheduledEvent aggregate timestamp triggeringEvent instanceIDs).Timestamp = timestamp
      ∧ (NewScheduledEvent aggregate timestamp triggeringEvent instanceIDs).InstanceIDs = instanceIDs
      ∧ (NewScheduledEvent aggregate timestamp triggeringEvent instanceIDs).TriggeringEvent
          = triggeringEvent
      ∧ (NewScheduledEvent aggregate timestamp triggeringEvent instanceIDs).BaseEvent.EventType
          = ScheduledEventType
      ∧ ScheduledEventType = "pseudo.timestamp"
      ∧ eventTypePrefix = "pseudo."
      ∧ ScheduledEventType = eventTypePrefix ++ "timestamp"
      ∧ eventTypePrefix.data <+: ScheduledEventType.data := by
  refine ⟨rfl, rfl, rfl, rfl, by decide, rfl, rfl, ?_⟩
  exact ⟨"timestamp".data, by decide⟩

end Pseudo
